import Mathlib

/-!
Shallow embedding of `inotify/adapters.py` (PyInotify): the watch registry,
the binary event-stream decoder, the event generator's filtering/termination
logic, and the recursive tree synchronizer.  Python dicts are embedded as
function-valued finite maps, the kernel syscall layer (`inotify.calls`,
absent from the sources) as explicit oracles, and generators as pure
functions returning the list of yielded items together with how the stream
ended.
-/

/-! ## Finite maps standing for Python dicts -/

/-- `m[k] = v` on a function-valued map (Python `d[k] = v`). -/
def dset {α β : Type} [DecidableEq α] (m : α → Option β) (k : α) (v : β) : α → Option β :=
  fun q => if q = k then some v else m q

/-- `del m[k]` on a function-valued map (Python `del d[k]`). -/
def ddel {α β : Type} [DecidableEq α] (m : α → Option β) (k : α) : α → Option β :=
  fun q => if q = k then none else m q

@[simp] theorem dset_same {α β : Type} [DecidableEq α] (m : α → Option β) (k : α) (v : β) :
    dset m k v k = some v := by simp [dset]

@[simp] theorem dset_other {α β : Type} [DecidableEq α] (m : α → Option β) (k q : α) (v : β)
    (h : q ≠ k) : dset m k v q = m q := by simp [dset, h]

@[simp] theorem ddel_same {α β : Type} [DecidableEq α] (m : α → Option β) (k : α) :
    ddel m k k = none := by simp [ddel]

@[simp] theorem ddel_other {α β : Type} [DecidableEq α] (m : α → Option β) (k q : α)
    (h : q ≠ k) : ddel m k q = m q := by simp [ddel, h]

/-! ## Kernel collaborator

Modelled from the spec: the syscall module `inotify.calls` is not among the
sources; per the spec's external-interface section it exposes
`add_watch(handle, path, mask) -> id` and `remove_watch(handle, id)` which can
fail with an OS-level error (`InotifyError`).  We record invocations as
`KernelCall` values; the id returned by the kernel on an add is supplied as an
explicit oracle argument, and whether a kernel-level removal succeeds is given
by an oracle `rmOk`. -/

inductive KernelCall
  | addWatch (path : String) (mask : Nat)
  | rmWatch (wd : Int)
deriving DecidableEq

/-! ## Watch registry (`Inotify.__watches` / `Inotify.__watches_r`) -/

/-- The two private dicts of `Inotify`: `__watches : path -> wd` and
`__watches_r : wd -> path`. -/
structure Registry where
  watches : String → Option Int
  watches_r : Int → Option String

def emptyRegistry : Registry := ⟨fun _ => none, fun _ => none⟩

/-- `Inotify.add_watch` (adapters.py lines 76-96).  The kernel's reply `wd` is
an oracle argument.  Result: new registry, kernel calls made, and whether an
exception escaped (the modelled kernel add always succeeds). -/
def add_watch (r : Registry) (path_unicode : String) (mask : Nat) (wd : Int) :
    Registry × List KernelCall × Bool :=
  if (r.watches path_unicode).isSome then
    -- "Path already being watched" -- warning, then plain return
    (r, [], false)
  else
    ({ watches := dset r.watches path_unicode wd,
       watches_r := dset r.watches_r wd path_unicode },
     [KernelCall.addWatch path_unicode mask], false)

/-- `Inotify._remove_watch` (adapters.py lines 98-108).  `superficial` is the
Python value `False`/`True`/`None`, embedded as `some false`/`some true`/`none`.
The kernel `inotify_rm_watch` call raises `InotifyError` when `rmOk wd` is
`false`; the raised flag reports an escaped exception. -/
def _remove_watch (rmOk : Int → Bool) (r : Registry) (wd : Int) (path : String)
    (superficial : Option Bool) : Registry × List KernelCall × Bool :=
  let r1 := if superficial ≠ none then
      { watches := ddel r.watches path, watches_r := ddel r.watches_r wd }
    else r
  if superficial ≠ some false then (r1, [], false)
  else (r1, [KernelCall.rmWatch wd], !rmOk wd)

/-- `Inotify.remove_watch` (adapters.py lines 110-123). -/
def remove_watch (rmOk : Int → Bool) (r : Registry) (path : String)
    (superficial : Option Bool) : Registry × List KernelCall × Bool :=
  match r.watches path with
  | none => (r, [], false)   -- "Path not in watch list" -- warning, return
  | some wd => _remove_watch rmOk r wd path superficial

/-- `Inotify.remove_watch_with_id` (adapters.py lines 125-131). -/
def remove_watch_with_id (rmOk : Int → Bool) (r : Registry) (wd : Int)
    (superficial : Option Bool) : Registry × List KernelCall × Bool :=
  match r.watches_r wd with
  | none => (r, [], false)   -- "Watchdescriptor not in watch list" -- warning
  | some path => _remove_watch rmOk r wd path superficial

/-! ## Registry operation sequences (for the bijection claim) -/

/-- One public registry operation; for an add, `wd` is the id the kernel
collaborator returns for that call. -/
inductive RegOp
  | add (p : String) (mask : Nat) (wd : Int)
  | remove (p : String) (s : Option Bool)
  | removeById (wd : Int) (s : Option Bool)
deriving DecidableEq

def applyOp (rmOk : Int → Bool) (r : Registry) : RegOp → Registry
  | RegOp.add p m w => (add_watch r p m w).1
  | RegOp.remove p s => (remove_watch rmOk r p s).1
  | RegOp.removeById w s => (remove_watch_with_id rmOk r w s).1

def runOps (rmOk : Int → Bool) (r : Registry) : List RegOp → Registry
  | [] => r
  | op :: t => runOps rmOk (applyOp rmOk r op) t

/-- The ids the kernel collaborator hands out along a sequence of operations. -/
def addIds : List RegOp → List Int
  | [] => []
  | RegOp.add _ _ w :: t => w :: addIds t
  | _ :: t => addIds t

/-- The registry is a bijection: the two dicts are mutually inverse. -/
def RegInv (r : Registry) : Prop :=
  ∀ p w, r.watches p = some w ↔ r.watches_r w = some p

/-- All ids present in the registry come from the list `S`. -/
def IdsFrom (r : Registry) (S : List Int) : Prop :=
  ∀ w p, r.watches_r w = some p → w ∈ S

/-! ## Binary event-stream decoder (`Inotify._handle_inotify_event`) -/

/-- `struct.calcsize("iIII")`: four native 32-bit fields, 16 bytes. -/
def _STRUCT_HEADER_LENGTH : Nat := 16

/-- The header namedtuple `_INOTIFY_EVENT(wd, mask, cookie, len)`. -/
structure _INOTIFY_EVENT where
  wd : Int
  mask : Nat
  cookie : Nat
  len : Nat
deriving DecidableEq

/-- Little-endian 32-bit value from four bytes. -/
def le32 (b0 b1 b2 b3 : Nat) : Nat :=
  b0 + 256 * b1 + 65536 * b2 + 16777216 * b3

/-- Reading of a native signed 32-bit field (the `"i"` in `"iIII"`). -/
def toSigned32 (n : Nat) : Int :=
  if n < 2 ^ 31 then (n : Int) else (n : Int) - 2 ^ 32

/-- `struct.unpack("iIII", peek_slice)` on the 16-byte header slice. -/
def parseHeader (b : List Nat) : _INOTIFY_EVENT :=
  { wd := toSigned32 (le32 (b.getD 0 0) (b.getD 1 0) (b.getD 2 0) (b.getD 3 0))
    mask := le32 (b.getD 4 0) (b.getD 5 0) (b.getD 6 0) (b.getD 7 0)
    cookie := le32 (b.getD 8 0) (b.getD 9 0) (b.getD 10 0) (b.getD 11 0)
    len := le32 (b.getD 12 0) (b.getD 13 0) (b.getD 14 0) (b.getD 15 0) }

/-- `filename.rstrip(b"\x00")`. -/
def rstripNul (l : List Nat) : List Nat :=
  (l.reverse.dropWhile (fun b => b = 0)).reverse

/-- A decoded event as yielded by the decoder: header, type names, watched
path, and the NUL-stripped filename bytes. -/
abbrev DecodedEvent := _INOTIFY_EVENT × List String × String × List Nat

/-- The `while 1` parse loop of `_handle_inotify_event` (adapters.py lines
150-185) over the retained buffer.  `lookup` is `_get_event_names` --
`MASK_LOOKUP_COMB` from the missing constants module, kept abstract; `none`
is the `AssertionError` raised for an unrecognized bitmask, reported as
`Except.error mask`.  `wr` is the `__watches_r` dict.  Returns the events
yielded and either the error or the retained trailing bytes. -/
def parseLoop (lookup : Nat → Option (List String)) (wr : Int → Option String)
    (buf : List Nat) : List DecodedEvent × Except Nat (List Nat) :=
  if h16 : buf.length < _STRUCT_HEADER_LENGTH then
    ([], Except.ok buf)
  else
    let header := parseHeader (buf.take _STRUCT_HEADER_LENGTH)
    match lookup header.mask with
    | none => ([], Except.error header.mask)
    | some type_names =>
      if hel : buf.length < _STRUCT_HEADER_LENGTH + header.len then
        ([], Except.ok buf)
      else
        let filename_bytes :=
          rstripNul ((buf.take (_STRUCT_HEADER_LENGTH + header.len)).drop _STRUCT_HEADER_LENGTH)
        let out := parseLoop lookup wr (buf.drop (_STRUCT_HEADER_LENGTH + header.len))
        match wr header.wd with
        | some path => ((header, type_names, path, filename_bytes) :: out.1, out.2)
        | none => out
termination_by buf.length
decreasing_by
  simp only [List.length_drop, _STRUCT_HEADER_LENGTH] at *
  omega

/-- One call of `_handle_inotify_event` (adapters.py lines 141-185): the
newly read bytes `b` are appended to the retained buffer and the parse loop
runs; an empty read returns immediately. -/
def handle_inotify_event (lookup : Nat → Option (List String)) (wr : Int → Option String)
    (buffer b : List Nat) : List DecodedEvent × Except Nat (List Nat) :=
  if b = [] then ([], Except.ok buffer)
  else parseLoop lookup wr (buffer ++ b)

/-- Feeding a sequence of byte chunks incrementally, accumulating the retained
buffer between calls; events are concatenated in order, an error aborts. -/
def feedChunks (lookup : Nat → Option (List String)) (wr : Int → Option String)
    (buffer : List Nat) : List (List Nat) → List DecodedEvent × Except Nat (List Nat)
  | [] => ([], Except.ok buffer)
  | c :: cs =>
    match handle_inotify_event lookup wr buffer c with
    | (evs, Except.error m) => (evs, Except.error m)
    | (evs, Except.ok buf1) =>
      let out := feedChunks lookup wr buf1 cs
      (evs ++ out.1, out.2)

/-! ## Wire-format records -/

/-- A well-formed wire record before encoding: watch id, bitmask, cookie and
the (already padded) name bytes whose count is the declared name length. -/
structure WireRecord where
  wd : Int
  mask : Nat
  cookie : Nat
  name : List Nat
deriving DecidableEq

/-- Little-endian byte encoding of a 32-bit value. -/
def enc32 (n : Nat) : List Nat :=
  [n % 256, n / 256 % 256, n / 65536 % 256, n / 16777216 % 256]

/-- The wire format: `iIII` header followed by exactly `name length` bytes. -/
def encodeRecord (r : WireRecord) : List Nat :=
  enc32 ((r.wd % 2 ^ 32).toNat) ++ enc32 r.mask ++ enc32 r.cookie ++
    enc32 r.name.length ++ r.name

/-! ## Event generator (`Inotify.event_gen`) filtering / termination logic -/

/-- The tuple `e = (header, type_names, path, filename)` processed by
`event_gen` and by the tree synchronizer. -/
structure StreamEvent where
  header : _INOTIFY_EVENT
  type_names : List String
  path : String
  filename : String
deriving DecidableEq

/-- `_DEFAULT_TERMINAL_EVENTS` (adapters.py line 19). -/
def _DEFAULT_TERMINAL_EVENTS : List String := ["IN_Q_OVERFLOW", "IN_UNMOUNT"]

/-- The Python test `filter_predicate is not None and
filter_predicate(type_name, e) is False`.  A predicate's Python return value
is embedded as `Option Bool` (`some false` = `False`, `some true` = `True`,
`none` = any other object such as `None`); only identically-`False` counts. -/
def filter_is_false (filter_predicate : Option (String → StreamEvent → Option Bool))
    (type_name : String) (e : StreamEvent) : Bool :=
  match filter_predicate with
  | none => false
  | some f => f type_name e == some false

/-- Outcome of the `for type_name in type_names` loop body for one event. -/
inductive KindOutcome
  | yield
  | stop (type_name : String)
  | terminal (type_name : String)
deriving DecidableEq

/-- The per-event kind loop of `event_gen` (adapters.py lines 236-244): for
each kind in order, first the filter test (plain `return` on `False`), then
the `elif type_name in terminal_events` test (raise
`TerminalEventException`); otherwise the next kind. -/
def processKinds (filter_predicate : Option (String → StreamEvent → Option Bool))
    (terminal_events : List String) (e : StreamEvent) : List String → KindOutcome
  | [] => KindOutcome.yield
  | tn :: rest =>
    if filter_is_false filter_predicate tn e then KindOutcome.stop tn
    else if terminal_events.contains tn then KindOutcome.terminal tn
    else processKinds filter_predicate terminal_events e rest

/-- How a run of decoded events left the stream. -/
inductive StreamEnd
  | exhausted
  | filterStop (type_name : String) (e : StreamEvent)
  | terminal (type_name : String) (e : StreamEvent)
deriving DecidableEq

/-- Processing the decoded events of one readiness cycle (adapters.py lines
230-246): each event either passes every kind and is yielded, or ends the
stream (normal return recording `__last_success_return`, or the terminal
exception).  Returns the yielded events and how the run ended. -/
def processEvents (filter_predicate : Option (String → StreamEvent → Option Bool))
    (terminal_events : List String) : List StreamEvent → List StreamEvent × StreamEnd
  | [] => ([], StreamEnd.exhausted)
  | e :: rest =>
    match processKinds filter_predicate terminal_events e e.type_names with
    | KindOutcome.stop tn => ([], StreamEnd.filterStop tn e)
    | KindOutcome.terminal tn => ([], StreamEnd.terminal tn e)
    | KindOutcome.yield =>
      let out := processEvents filter_predicate terminal_events rest
      (e :: out.1, out.2)

/-- How one iteration of the outer `while True` loop ends. -/
inductive IterEnd
  | cont
  | broke
  | stopped (type_name : String) (e : StreamEvent)
  | terminal (type_name : String) (e : StreamEvent)
deriving DecidableEq

/-- One iteration of `event_gen`'s outer loop (adapters.py lines 204-254)
after the poll: the decoded events of this iteration are processed, then --
unless the stream already ended -- the timeout check (`timedOut` abstracts
`timeout_s is not None and time.time() - last_hit_s > timeout_s`) and then
`if yield_nones is True: yield None`.  Returns the items yielded this
iteration (`none` is the idle marker) and how the iteration ended. -/
def iterStep (yield_nones : Bool)
    (filter_predicate : Option (String → StreamEvent → Option Bool))
    (terminal_events : List String) (timedOut : Bool) (evs : List StreamEvent) :
    List (Option StreamEvent) × IterEnd :=
  match processEvents filter_predicate terminal_events evs with
  | (ys, StreamEnd.filterStop tn e) => (ys.map some, IterEnd.stopped tn e)
  | (ys, StreamEnd.terminal tn e) => (ys.map some, IterEnd.terminal tn e)
  | (ys, StreamEnd.exhausted) =>
    if timedOut then (ys.map some, IterEnd.broke)
    else (ys.map some ++ (if yield_nones then [none] else []), IterEnd.cont)

/-! ## Tree synchronizer (`_BaseTree.event_gen`)

Modelled from the spec where noted: the flag constants below belong to the
missing `inotify.constants` module; their values are the standard bit
assignments of the kernel interface the spec describes. -/

/-- Modelled from the spec: `IN_ISDIR` from the missing constants module. -/
def IN_ISDIR : Nat := 0x40000000

/-- Modelled from the spec: `IN_CREATE` from the missing constants module. -/
def IN_CREATE : Nat := 0x00000100

/-- Modelled from the spec: `IN_MOVED_TO` from the missing constants module. -/
def IN_MOVED_TO : Nat := 0x00000080

/-- Modelled from the spec: `IN_MOVED_FROM` from the missing constants module. -/
def IN_MOVED_FROM : Nat := 0x00000040

/-- Modelled from the spec: `IN_DELETE` from the missing constants module. -/
def IN_DELETE : Nat := 0x00000200

/-- The mask `_BaseTree.__init__` actually watches with (adapters.py lines
273-280): the caller's mask unioned with the flags the synchronizer needs. -/
def effective_mask (mask : Nat) : Nat :=
  mask ||| IN_ISDIR ||| IN_CREATE ||| IN_MOVED_TO ||| IN_DELETE ||| IN_MOVED_FROM

/-- A call the tree synchronizer makes into its owned `Inotify` object. -/
inductive ICall
  | add (p : String) (mask : Nat)
  | remove (p : String) (superficial : Option Bool)
deriving DecidableEq

/-- Result of processing one event in `_BaseTree.event_gen`. -/
structure TreeOut where
  reg : Registry
  icalls : List ICall
  kcalls : List KernelCall
  raised : Bool

/-- The create-or-moved-in half of the housekeeping (adapters.py lines
300-322): install a watch on the joined path when the event carries the
moved-to or create flag and the directory exists (or the existence check is
skipped because `ignore_missing_new_folders` is false). -/
def tree_handle_new_dir (path_exists : String → Bool) (wd : Int) (tmask : Nat)
    (ignore_missing_new_folders : Bool) (r : Registry) (mask : Nat)
    (full_path : String) : Registry × List ICall × List KernelCall :=
  if (mask &&& IN_MOVED_TO ≠ 0 ∨ mask &&& IN_CREATE ≠ 0)
      ∧ (path_exists full_path = true ∨ ignore_missing_new_folders = false) then
    ((add_watch r full_path tmask wd).1, [ICall.add full_path tmask],
      (add_watch r full_path tmask wd).2.1)
  else (r, [], [])

/-- The housekeeping `_BaseTree.event_gen` performs for one (non-`None`)
event before re-yielding it (adapters.py lines 294-350).  `pjoin` abstracts
`os.path.join`, `path_exists` abstracts `os.path.exists`, `wd` is the kernel's
reply should a watch be added, `tmask` the tree's mask (`self._mask`).  The
`try/except InotifyError: pass` around the moved-from removal is the reset
of the raised flag in that branch. -/
def treeStep (pjoin : String → String → String) (path_exists : String → Bool)
    (rmOk : Int → Bool) (wd : Int) (tmask : Nat) (ignore_missing_new_folders : Bool)
    (r : Registry) (ev : StreamEvent) : TreeOut :=
  if ev.header.mask &&& IN_ISDIR ≠ 0 then
    let full_path := pjoin ev.path ev.filename
    let step1 := tree_handle_new_dir path_exists wd tmask ignore_missing_new_folders
      r ev.header.mask full_path
    if ev.header.mask &&& IN_DELETE ≠ 0 then
      let out := remove_watch rmOk step1.1 full_path (some true)
      ⟨out.1, step1.2.1 ++ [ICall.remove full_path (some true)],
        step1.2.2 ++ out.2.1, out.2.2⟩
    else if ev.header.mask &&& IN_MOVED_FROM ≠ 0 then
      let out := remove_watch rmOk step1.1 full_path (some false)
      ⟨out.1, step1.2.1 ++ [ICall.remove full_path (some false)],
        step1.2.2 ++ out.2.1, false⟩
    else ⟨step1.1, step1.2.1, step1.2.2, false⟩
  else ⟨r, [], [], false⟩

/-- The ways an operation can leave a given registry entry `(p, wd)` alone:
an add of the same path (a tolerated duplicate, hence a no-op), an add that
got a different id from the kernel, a removal of a different path or id, or
a removal in the do-nothing `superficial=None` mode. -/
def OpKeeps : RegOp → String → Int → Prop
  | RegOp.add q _ w, p, wd => q = p ∨ w ≠ wd
  | RegOp.remove q s, p, _ => q ≠ p ∨ s = none
  | RegOp.removeById w s, _, wd => w ≠ wd ∨ s = none

/-! ## Concrete sample data used by the witnesses and counterexamples -/

/-- A concrete instance of the abstract `MASK_LOOKUP_COMB` table. -/
def sampleLookup : Nat → Option (List String) := fun m =>
  if m = 256 then some ["IN_CREATE"]
  else if m = 16384 then some ["IN_Q_OVERFLOW"]
  else none

/-- A concrete `__watches_r` with watch 1 on `/tmp`. -/
def sampleWr : Int → Option String := fun w => if w = 1 then some "/tmp" else none

/-- A registry holding the single watch `/a -> 1`. -/
def reg_a : Registry :=
  ⟨fun p => if p = "/a" then some 1 else none,
   fun w => if w = 1 then some "/a" else none⟩

/-- A registry holding the single watch `/w/d -> 3`. -/
def reg_w : Registry :=
  ⟨fun p => if p = "/w/d" then some 3 else none,
   fun w => if w = 3 then some "/w/d" else none⟩

/-- A queue-overflow event as decoded from the stream. -/
def qOverflowEvent : StreamEvent :=
  { header := { wd := -1, mask := 16384, cookie := 0, len := 0 }
    type_names := ["IN_Q_OVERFLOW"], path := "/tmp", filename := "" }

/-- A plain file-created event. -/
def createEvent : StreamEvent :=
  { header := { wd := 1, mask := 256, cookie := 0, len := 16 }
    type_names := ["IN_CREATE"], path := "/tmp", filename := "f" }

/-- A directory-created event (`IN_ISDIR | IN_CREATE`). -/
def createDirEvent : StreamEvent :=
  { header := { wd := 3, mask := 0x40000100, cookie := 0, len := 16 }
    type_names := ["IN_ISDIR", "IN_CREATE"], path := "/w", filename := "d" }

/-- A directory-deleted event (`IN_ISDIR | IN_DELETE`). -/
def deleteDirEvent : StreamEvent :=
  { header := { wd := 3, mask := 0x40000200, cookie := 0, len := 16 }
    type_names := ["IN_ISDIR", "IN_DELETE"], path := "/w", filename := "d" }

/-- A directory moved-from event (`IN_ISDIR | IN_MOVED_FROM`). -/
def movedDirEvent : StreamEvent :=
  { header := { wd := 3, mask := 0x40000040, cookie := 7, len := 16 }
    type_names := ["IN_ISDIR", "IN_MOVED_FROM"], path := "/w", filename := "d" }

/-- A synthetic directory event carrying both the delete and the moved-from
flags (`IN_ISDIR | IN_DELETE | IN_MOVED_FROM`). -/
def bothDirEvent : StreamEvent :=
  { header := { wd := 3, mask := 0x40000240, cookie := 0, len := 16 }
    type_names := ["IN_ISDIR", "IN_DELETE", "IN_MOVED_FROM"], path := "/w", filename := "d" }

/-- A concrete `os.path.join`. -/
def samplePjoin : String → String → String := fun a b => a ++ "/" ++ b

/-- A filter predicate returning Python `False` for every kind. -/
def alwaysFalseFilter : Option (String → StreamEvent → Option Bool) :=
  some fun _ _ => some false

/-- A well-formed wire record: watch 1, `IN_CREATE`, name `ab` padded. -/
def rec1 : WireRecord := ⟨1, 256, 0, [97, 98, 0, 0]⟩

/-- A second well-formed wire record: watch 1, `IN_CREATE`, name `c` padded. -/
def rec2 : WireRecord := ⟨1, 256, 5, [99, 0, 0, 0]⟩

/-! # Theorems -/

/-! ## Registry lemmas -/

theorem regInv_empty : RegInv emptyRegistry := by
  intro p w
  simp [emptyRegistry]

/-- A one-entry registry is a bijection. -/
theorem regInv_single (p0 : String) (w0 : Int) :
    RegInv ⟨fun p => if p = p0 then some w0 else none,
            fun w => if w = w0 then some p0 else none⟩ := by
  intro p w
  by_cases hp : p = p0
  · subst hp
    by_cases hw : w = w0
    · subst hw; simp
    · simp only [if_pos rfl, if_neg hw]
      constructor
      · intro h; exact absurd (Option.some.inj h).symm hw
      · intro h; cases h
  · by_cases hw : w = w0
    · subst hw
      simp only [if_neg hp, if_pos rfl]
      constructor
      · intro h; cases h
      · intro h; exact absurd (Option.some.inj h).symm hp
    · simp [if_neg hp, if_neg hw]

theorem regInv_reg_a : RegInv reg_a := regInv_single "/a" 1

theorem regInv_reg_w : RegInv reg_w := regInv_single "/w/d" 3

/-- Inserting a fresh pair into a bijective registry keeps it bijective. -/
theorem regInv_dset {r : Registry} {p : String} {w : Int}
    (h : RegInv r) (hp : r.watches p = none) (hw : r.watches_r w = none) :
    RegInv ⟨dset r.watches p w, dset r.watches_r w p⟩ := by
  intro q v
  simp only [dset]
  rcases eq_or_ne q p with hq | hq
  · subst hq
    rcases eq_or_ne v w with hv | hv
    · subst hv; simp
    · simp only [if_pos rfl, if_neg hv]
      constructor
      · intro hx
        exact absurd (Option.some.inj hx).symm hv
      · intro hx
        have := (h q v).mpr hx
        rw [hp] at this
        exact absurd this (by simp)
  · rcases eq_or_ne v w with hv | hv
    · subst hv
      simp only [if_neg hq, if_pos rfl]
      constructor
      · intro hx
        have := (h q v).mp hx
        rw [hw] at this
        exact absurd this (by simp)
      · intro hx
        exact absurd (Option.some.inj hx).symm hq
    · simp only [if_neg hq, if_neg hv]
      exact h q v

/-- Removing an existing pair from a bijective registry keeps it bijective. -/
theorem regInv_ddel {r : Registry} {p : String} {w : Int}
    (h : RegInv r) (hp : r.watches p = some w) :
    RegInv ⟨ddel r.watches p, ddel r.watches_r w⟩ := by
  intro q v
  simp only [ddel]
  rcases eq_or_ne q p with hq | hq
  · subst hq
    simp only [if_pos rfl]
    rcases eq_or_ne v w with hv | hv
    · simp [hv]
    · simp only [if_neg hv]
      constructor
      · intro hx; cases hx
      · intro hx
        have := (h q v).mpr hx
        rw [hp] at this
        exact absurd (Option.some.inj this).symm hv
  · simp only [if_neg hq]
    rcases eq_or_ne v w with hv | hv
    · subst hv
      simp only [if_pos rfl]
      constructor
      · intro hx
        have h1 := (h q v).mp hx
        have h2 := (h p v).mp hp
        rw [h1] at h2
        exact absurd (Option.some.inj h2) hq
      · intro hx; cases hx
    · simp only [if_neg hv]
      exact h q v

/-! ## Claim C6: duplicate adds and unknown removals are tolerated no-ops -/

/-- Claim C6: `add_watch` on a path already in the registry leaves the
registry unchanged and makes no kernel call; `remove_watch` and
`remove_watch_with_id` on an unknown path or id leave the registry unchanged
and return normally (no kernel call, no exception), and repeating such a
removal any number of times still leaves the registry unchanged. -/
theorem C6_duplicate_and_unknown_are_noops :
    (∀ (r : Registry) (p : String) (mask : Nat) (wd : Int),
        (r.watches p).isSome → add_watch r p mask wd = (r, [], false)) ∧
    (∀ (rmOk : Int → Bool) (r : Registry) (p : String) (s : Option Bool),
        r.watches p = none → remove_watch rmOk r p s = (r, [], false)) ∧
    (∀ (rmOk : Int → Bool) (r : Registry) (wd : Int) (s : Option Bool),
        r.watches_r wd = none → remove_watch_with_id rmOk r wd s = (r, [], false)) ∧
    (∀ (rmOk : Int → Bool) (r : Registry) (p : String) (s : Option Bool) (n : Nat),
        r.watches p = none →
        runOps rmOk r (List.replicate n (RegOp.remove p s)) = r) ∧
    (∀ (rmOk : Int → Bool) (r : Registry) (wd : Int) (s : Option Bool) (n : Nat),
        r.watches_r wd = none →
        runOps rmOk r (List.replicate n (RegOp.removeById wd s)) = r) := by
  have hrm : ∀ (rmOk : Int → Bool) (r : Registry) (p : String) (s : Option Bool),
      r.watches p = none → remove_watch rmOk r p s = (r, [], false) := by
    intro rmOk r p s h
    unfold remove_watch
    rw [h]
  have hrmid : ∀ (rmOk : Int → Bool) (r : Registry) (wd : Int) (s : Option Bool),
      r.watches_r wd = none → remove_watch_with_id rmOk r wd s = (r, [], false) := by
    intro rmOk r wd s h
    unfold remove_watch_with_id
    rw [h]
  refine ⟨?_, hrm, hrmid, ?_, ?_⟩
  · intro r p mask wd h
    unfold add_watch
    rw [if_pos h]
  · intro rmOk r p s n h
    induction n with
    | zero => rfl
    | succ k ih =>
      rw [List.replicate_succ]
      show runOps rmOk (applyOp rmOk r (RegOp.remove p s)) _ = r
      have : applyOp rmOk r (RegOp.remove p s) = r := by
        show (remove_watch rmOk r p s).1 = r
        rw [hrm rmOk r p s h]
      rw [this]
      exact ih
  · intro rmOk r wd s n h
    induction n with
    | zero => rfl
    | succ k ih =>
      rw [List.replicate_succ]
      show runOps rmOk (applyOp rmOk r (RegOp.removeById wd s)) _ = r
      have : applyOp rmOk r (RegOp.removeById wd s) = r := by
        show (remove_watch_with_id rmOk r wd s).1 = r
        rw [hrmid rmOk r wd s h]
      rw [this]
      exact ih

/-- Witness for C6 at concrete inputs: a duplicate add of `/a` on `reg_a`,
and removals of a path/id the empty registry does not hold. -/
theorem C6_witness :
    add_watch reg_a "/a" 5 2 = (reg_a, [], false) ∧
    remove_watch (fun _ => true) emptyRegistry "/a" (some false) = (emptyRegistry, [], false) ∧
    remove_watch_with_id (fun _ => true) emptyRegistry 9 (some false) = (emptyRegistry, [], false) ∧
    runOps (fun _ => true) emptyRegistry
      (List.replicate 3 (RegOp.remove "/a" (some false))) = emptyRegistry :=
  ⟨C6_duplicate_and_unknown_are_noops.1 reg_a "/a" 5 2 (by simp [reg_a]),
   C6_duplicate_and_unknown_are_noops.2.1 _ emptyRegistry "/a" (some false) rfl,
   C6_duplicate_and_unknown_are_noops.2.2.1 _ emptyRegistry 9 (some false) rfl,
   C6_duplicate_and_unknown_are_noops.2.2.2.1 _ emptyRegistry "/a" (some false) 3 rfl⟩

/-! ## Claim C9: `superficial=None` removal is a complete no-op -/

/-- Claim C9: calling `remove_watch` or `remove_watch_with_id` on a registered
path/id with `superficial=None` leaves both registry maps unchanged and makes
no kernel-level watch-removal call (and raises nothing). -/
theorem C9_superficial_none_is_noop :
    (∀ (rmOk : Int → Bool) (r : Registry) (p : String) (wd : Int),
        r.watches p = some wd → remove_watch rmOk r p none = (r, [], false)) ∧
    (∀ (rmOk : Int → Bool) (r : Registry) (wd : Int) (p : String),
        r.watches_r wd = some p → remove_watch_with_id rmOk r wd none = (r, [], false)) := by
  constructor
  · intro rmOk r p wd h
    unfold remove_watch
    rw [h]
    rfl
  · intro rmOk r wd p h
    unfold remove_watch_with_id
    rw [h]
    rfl

/-- Witness for C9: the registered watch `/a -> 1` of `reg_a`. -/
theorem C9_witness :
    remove_watch (fun _ => false) reg_a "/a" none = (reg_a, [], false) ∧
    remove_watch_with_id (fun _ => false) reg_a 1 none = (reg_a, [], false) :=
  ⟨C9_superficial_none_is_noop.1 _ reg_a "/a" 1 (by simp [reg_a]),
   C9_superficial_none_is_noop.2 _ reg_a 1 "/a" (by simp [reg_a])⟩

/-! ## Claim C5: the registry maintains a bijection -/

/-- Evaluation of `_remove_watch` in `superficial=None` mode. -/
theorem _remove_watch_none (rmOk : Int → Bool) (r : Registry) (wd : Int) (p : String) :
    _remove_watch rmOk r wd p none = (r, [], false) := rfl

/-- Evaluation of `_remove_watch` in registry-only (`superficial=True`) mode. -/
theorem _remove_watch_true (rmOk : Int → Bool) (r : Registry) (wd : Int) (p : String) :
    _remove_watch rmOk r wd p (some true) =
      ({ watches := ddel r.watches p, watches_r := ddel r.watches_r wd }, [], false) := rfl

/-- Evaluation of `_remove_watch` in full (`superficial=False`) mode. -/
theorem _remove_watch_false (rmOk : Int → Bool) (r : Registry) (wd : Int) (p : String) :
    _remove_watch rmOk r wd p (some false) =
      ({ watches := ddel r.watches p, watches_r := ddel r.watches_r wd },
       [KernelCall.rmWatch wd], !rmOk wd) := rfl

/-- `remove_watch` on an unknown path returns immediately. -/
theorem remove_watch_eq_none (rmOk : Int → Bool) (r : Registry) (p : String)
    (s : Option Bool) (hx : r.watches p = none) :
    remove_watch rmOk r p s = (r, [], false) := by
  unfold remove_watch
  rw [hx]

/-- `remove_watch` on a registered path delegates to `_remove_watch`. -/
theorem remove_watch_eq_some (rmOk : Int → Bool) (r : Registry) (p : String)
    (s : Option Bool) (wd : Int) (hx : r.watches p = some wd) :
    remove_watch rmOk r p s = _remove_watch rmOk r wd p s := by
  unfold remove_watch
  rw [hx]

/-- `remove_watch_with_id` on an unknown id returns immediately. -/
theorem remove_watch_with_id_eq_none (rmOk : Int → Bool) (r : Registry) (wd : Int)
    (s : Option Bool) (hx : r.watches_r wd = none) :
    remove_watch_with_id rmOk r wd s = (r, [], false) := by
  unfold remove_watch_with_id
  rw [hx]

/-- `remove_watch_with_id` on a registered id delegates to `_remove_watch`. -/
theorem remove_watch_with_id_eq_some (rmOk : Int → Bool) (r : Registry) (wd : Int)
    (s : Option Bool) (p : String) (hx : r.watches_r wd = some p) :
    remove_watch_with_id rmOk r wd s = _remove_watch rmOk r wd p s := by
  unfold remove_watch_with_id
  rw [hx]

/-- Registry part of a `remove_watch` never invents entries in `__watches_r`. -/
theorem remove_watch_r_sub (rmOk : Int → Bool) (r : Registry) (p : String)
    (s : Option Bool) (v : Int) (q : String)
    (h : (remove_watch rmOk r p s).1.watches_r v = some q) :
    r.watches_r v = some q := by
  cases hx : r.watches p with
  | none => rw [remove_watch_eq_none rmOk r p s hx] at h; exact h
  | some wd =>
    rw [remove_watch_eq_some rmOk r p s wd hx] at h
    have step : ddel r.watches_r wd v = some q →
        r.watches_r v = some q := by
      intro hh
      by_cases hv : v = wd
      · rw [hv, ddel_same] at hh; cases hh
      · rwa [ddel_other _ _ _ hv] at hh
    rcases s with _ | b
    · rw [_remove_watch_none] at h; exact h
    · rcases b with _ | _
      · rw [_remove_watch_false] at h; exact step h
      · rw [_remove_watch_true] at h; exact step h

/-- Same for `remove_watch_with_id`. -/
theorem remove_watch_with_id_r_sub (rmOk : Int → Bool) (r : Registry) (wd : Int)
    (s : Option Bool) (v : Int) (q : String)
    (h : (remove_watch_with_id rmOk r wd s).1.watches_r v = some q) :
    r.watches_r v = some q := by
  cases hx : r.watches_r wd with
  | none => rw [remove_watch_with_id_eq_none rmOk r wd s hx] at h; exact h
  | some p =>
    rw [remove_watch_with_id_eq_some rmOk r wd s p hx] at h
    have step : ddel r.watches_r wd v = some q →
        r.watches_r v = some q := by
      intro hh
      by_cases hv : v = wd
      · rw [hv, ddel_same] at hh; cases hh
      · rwa [ddel_other _ _ _ hv] at hh
    rcases s with _ | b
    · rw [_remove_watch_none] at h; exact h
    · rcases b with _ | _
      · rw [_remove_watch_false] at h; exact step h
      · rw [_remove_watch_true] at h; exact step h

/-- The removal operations preserve the bijection. -/
theorem regInv_remove (rmOk : Int → Bool) (r : Registry) (p : String)
    (s : Option Bool) (h : RegInv r) : RegInv (remove_watch rmOk r p s).1 := by
  cases hx : r.watches p with
  | none => rw [remove_watch_eq_none rmOk r p s hx]; exact h
  | some wd =>
    rw [remove_watch_eq_some rmOk r p s wd hx]
    have hd : RegInv ⟨ddel r.watches p, ddel r.watches_r wd⟩ := regInv_ddel h hx
    rcases s with _ | b
    · rw [_remove_watch_none]; exact h
    · rcases b with _ | _
      · rw [_remove_watch_false]; exact hd
      · rw [_remove_watch_true]; exact hd

/-- Removal by id preserves the bijection. -/
theorem regInv_remove_id (rmOk : Int → Bool) (r : Registry) (wd : Int)
    (s : Option Bool) (h : RegInv r) : RegInv (remove_watch_with_id rmOk r wd s).1 := by
  cases hx : r.watches_r wd with
  | none => rw [remove_watch_with_id_eq_none rmOk r wd s hx]; exact h
  | some p =>
    rw [remove_watch_with_id_eq_some rmOk r wd s p hx]
    have hd : RegInv ⟨ddel r.watches p, ddel r.watches_r wd⟩ :=
      regInv_ddel h ((h p wd).mpr hx)
    rcases s with _ | b
    · rw [_remove_watch_none]; exact h
    · rcases b with _ | _
      · rw [_remove_watch_false]; exact hd
      · rw [_remove_watch_true]; exact hd

/-- Running a sequence of operations whose kernel-returned ids are all
distinct and all new keeps the registry a bijection. -/
theorem runOps_regInv (rmOk : Int → Bool) :
    ∀ (ops : List RegOp) (r : Registry) (S : List Int),
      RegInv r → IdsFrom r S → (addIds ops).Nodup →
      (∀ w ∈ addIds ops, w ∉ S) → RegInv (runOps rmOk r ops) := by
  intro ops
  induction ops with
  | nil => intro r S h _ _ _; exact h
  | cons op t ih =>
    intro r S h hS hnd hdisj
    cases op with
    | add p m w =>
      have hw_not_t : w ∉ addIds t := by
        have := (List.nodup_cons.mp (by simpa [addIds] using hnd)).1
        exact this
      have hnd_t : (addIds t).Nodup :=
        (List.nodup_cons.mp (by simpa [addIds] using hnd)).2
      have hwS : w ∉ S := hdisj w (by simp [addIds])
      have hdisj_t : ∀ v ∈ addIds t, v ∉ S := fun v hv =>
        hdisj v (by simp [addIds, hv])
      show RegInv (runOps rmOk (applyOp rmOk r (RegOp.add p m w)) t)
      by_cases hps : (r.watches p).isSome
      · have : applyOp rmOk r (RegOp.add p m w) = r := by
          show (add_watch r p m w).1 = r
          unfold add_watch
          rw [if_pos hps]
        rw [this]
        exact ih r S h hS hnd_t hdisj_t
      · have hpn : r.watches p = none := Option.not_isSome_iff_eq_none.mp hps
        have hwn : r.watches_r w = none := by
          cases hrw : r.watches_r w with
          | none => rfl
          | some q => exact absurd (hS w q hrw) hwS
        have happ : applyOp rmOk r (RegOp.add p m w) =
            ⟨dset r.watches p w, dset r.watches_r w p⟩ := by
          show (add_watch r p m w).1 = _
          unfold add_watch
          rw [if_neg hps]
        rw [happ]
        refine ih _ (w :: S) (regInv_dset h hpn hwn) ?_ hnd_t ?_
        · intro v q hv
          by_cases hvw : v = w
          · simp [hvw]
          · have : r.watches_r v = some q := by
              simpa [dset, hvw] using hv
            exact List.mem_cons_of_mem _ (hS v q this)
        · intro v hv
          simp only [List.mem_cons]
          push_neg
          constructor
          · intro hvw; exact hw_not_t (hvw ▸ hv)
          · exact hdisj_t v hv
    | remove p s =>
      have hnd_t : (addIds t).Nodup := by simpa [addIds] using hnd
      have hdisj_t : ∀ v ∈ addIds t, v ∉ S := fun v hv =>
        hdisj v (by simp [addIds, hv])
      show RegInv (runOps rmOk (applyOp rmOk r (RegOp.remove p s)) t)
      refine ih _ S (regInv_remove rmOk r p s h) ?_ hnd_t hdisj_t
      intro v q hv
      exact hS v q (remove_watch_r_sub rmOk r p s v q hv)
    | removeById w s =>
      have hnd_t : (addIds t).Nodup := by simpa [addIds] using hnd
      have hdisj_t : ∀ v ∈ addIds t, v ∉ S := fun v hv =>
        hdisj v (by simp [addIds, hv])
      show RegInv (runOps rmOk (applyOp rmOk r (RegOp.removeById w s)) t)
      refine ih _ S (regInv_remove_id rmOk r w s h) ?_ hnd_t hdisj_t
      intro v q hv
      exact hS v q (remove_watch_with_id_r_sub rmOk r w s v q hv)

/-- Claim C5: the watch registry maintains a bijection between paths and
watch ids.  (1) Along any operation sequence in which the kernel collaborator
returns pairwise-distinct ids, every reachable state is a bijection -- no two
paths share an id and no two ids share a path.  (2) After `add_watch(p)`
returns a fresh id, looking up `p` yields the id and looking up the id yields
`p`.  (3) The pair stays in place under every operation that does not remove
it (`OpKeeps`) -- "until the watch is removed".  (4) After a removal in
either non-`None` mode, by path or by id, both lookups fail. -/
theorem C5_registry_bijection :
    (∀ (rmOk : Int → Bool) (ops : List RegOp), (addIds ops).Nodup →
        RegInv (runOps rmOk emptyRegistry ops)) ∧
    (∀ (r : Registry) (p : String) (mask : Nat) (wd : Int),
        r.watches p = none → r.watches_r wd = none →
        (add_watch r p mask wd).1.watches p = some wd ∧
        (add_watch r p mask wd).1.watches_r wd = some p) ∧
    (∀ (rmOk : Int → Bool) (r : Registry) (p : String) (wd : Int) (op : RegOp),
        RegInv r → r.watches p = some wd → OpKeeps op p wd →
        (applyOp rmOk r op).watches p = some wd ∧
        (applyOp rmOk r op).watches_r wd = some p) ∧
    (∀ (rmOk : Int → Bool) (r : Registry) (p : String) (wd : Int) (s : Option Bool),
        RegInv r → r.watches p = some wd → s ≠ none →
        (remove_watch rmOk r p s).1.watches p = none ∧
        (remove_watch rmOk r p s).1.watches_r wd = none ∧
        (remove_watch_with_id rmOk r wd s).1.watches p = none ∧
        (remove_watch_with_id rmOk r wd s).1.watches_r wd = none) := by
  refine ⟨?part1, ?part2, ?part3, ?part4⟩
  case part1 =>
    intro rmOk ops hnd
    refine runOps_regInv rmOk ops emptyRegistry [] regInv_empty ?_ hnd ?_
    · intro w p h
      simp [emptyRegistry] at h
    · intro w _
      simp
  case part2 =>
    intro r p mask wd hp hw
    have hps : ¬(r.watches p).isSome := by simp [hp]
    unfold add_watch
    rw [if_neg hps]
    exact ⟨dset_same _ _ _, dset_same _ _ _⟩
  case part3 =>
    intro rmOk r p wd op hInv hp hkeep
    cases op with
    | add q m w =>
      show (add_watch r q m w).1.watches p = some wd ∧
        (add_watch r q m w).1.watches_r wd = some p
      by_cases hqs : (r.watches q).isSome
      · unfold add_watch
        rw [if_pos hqs]
        exact ⟨hp, (hInv p wd).mp hp⟩
      · have hqp : p ≠ q := by
          intro he
          rw [← he, hp] at hqs
          exact hqs rfl
        have hwwd : w ≠ wd := by
          rcases hkeep with he | hne
          · exact absurd he.symm hqp
          · exact hne
        unfold add_watch
        rw [if_neg hqs]
        refine ⟨?_, ?_⟩
        · show dset r.watches q w p = some wd
          rw [dset_other _ _ _ _ hqp]
          exact hp
        · show dset r.watches_r w q wd = some p
          rw [dset_other _ _ _ _ (Ne.symm hwwd)]
          exact (hInv p wd).mp hp
    | remove q s =>
      show (remove_watch rmOk r q s).1.watches p = some wd ∧
        (remove_watch rmOk r q s).1.watches_r wd = some p
      rcases hkeep with hq | hs
      · cases hx : r.watches q with
        | none =>
          rw [remove_watch_eq_none rmOk r q s hx]
          exact ⟨hp, (hInv p wd).mp hp⟩
        | some wq =>
          have hwdwq : wd ≠ wq := by
            intro he
            have h1 := (hInv q wq).mp hx
            have h2 := (hInv p wd).mp hp
            rw [← he] at h1
            rw [h1] at h2
            exact hq (Option.some.inj h2)
          rw [remove_watch_eq_some rmOk r q s wq hx]
          rcases s with _ | b
          · rw [_remove_watch_none]
            exact ⟨hp, (hInv p wd).mp hp⟩
          · have hgoal : ddel r.watches q p = some wd ∧ ddel r.watches_r wq wd = some p := by
              constructor
              · rw [ddel_other _ _ _ (Ne.symm hq)]
                exact hp
              · rw [ddel_other _ _ _ hwdwq]
                exact (hInv p wd).mp hp
            rcases b with _ | _
            · rw [_remove_watch_false]; exact hgoal
            · rw [_remove_watch_true]; exact hgoal
      · subst hs
        cases hx : r.watches q with
        | none =>
          rw [remove_watch_eq_none rmOk r q none hx]
          exact ⟨hp, (hInv p wd).mp hp⟩
        | some wq =>
          rw [remove_watch_eq_some rmOk r q none wq hx, _remove_watch_none]
          exact ⟨hp, (hInv p wd).mp hp⟩
    | removeById w s =>
      show (remove_watch_with_id rmOk r w s).1.watches p = some wd ∧
        (remove_watch_with_id rmOk r w s).1.watches_r wd = some p
      rcases hkeep with hw | hs
      · cases hx : r.watches_r w with
        | none =>
          rw [remove_watch_with_id_eq_none rmOk r w s hx]
          exact ⟨hp, (hInv p wd).mp hp⟩
        | some q =>
          have hqp : p ≠ q := by
            intro he
            have h1 := (hInv q w).mpr hx
            rw [← he, hp] at h1
            exact hw (Option.some.inj h1).symm
          rw [remove_watch_with_id_eq_some rmOk r w s q hx]
          rcases s with _ | b
          · rw [_remove_watch_none]
            exact ⟨hp, (hInv p wd).mp hp⟩
          · have hgoal : ddel r.watches q p = some wd ∧ ddel r.watches_r w wd = some p := by
              constructor
              · rw [ddel_other _ _ _ hqp]
                exact hp
              · rw [ddel_other _ _ _ (Ne.symm hw)]
                exact (hInv p wd).mp hp
            rcases b with _ | _
            · rw [_remove_watch_false]; exact hgoal
            · rw [_remove_watch_true]; exact hgoal
      · subst hs
        cases hx : r.watches_r w with
        | none =>
          rw [remove_watch_with_id_eq_none rmOk r w none hx]
          exact ⟨hp, (hInv p wd).mp hp⟩
        | some q =>
          rw [remove_watch_with_id_eq_some rmOk r w none q hx, _remove_watch_none]
          exact ⟨hp, (hInv p wd).mp hp⟩
  case part4 =>
    intro rmOk r p wd s hInv hp hs
    have hr : r.watches_r wd = some p := (hInv p wd).mp hp
    rw [remove_watch_eq_some rmOk r p s wd hp,
      remove_watch_with_id_eq_some rmOk r wd s p hr]
    have hgoal : ddel r.watches p p = none ∧ ddel r.watches_r wd wd = none :=
      ⟨ddel_same _ _, ddel_same _ _⟩
    rcases s with _ | b
    · exact absurd rfl hs
    · rcases b with _ | _
      · rw [_remove_watch_false]
        exact ⟨hgoal.1, hgoal.2, hgoal.1, hgoal.2⟩
      · rw [_remove_watch_true]
        exact ⟨hgoal.1, hgoal.2, hgoal.1, hgoal.2⟩

/-- Witness for C5: a concrete run (two adds with distinct kernel ids, one
removal), plus each lookup clause instantiated on `reg_a`. -/
theorem C5_witness :
    RegInv (runOps (fun _ => true) emptyRegistry
      [RegOp.add "/a" 5 1, RegOp.add "/b" 5 2, RegOp.remove "/a" (some false)]) ∧
    ((add_watch emptyRegistry "/a" 5 1).1.watches "/a" = some 1 ∧
     (add_watch emptyRegistry "/a" 5 1).1.watches_r 1 = some "/a") ∧
    ((applyOp (fun _ => true) reg_a (RegOp.add "/b" 5 2)).watches "/a" = some 1 ∧
     (applyOp (fun _ => true) reg_a (RegOp.add "/b" 5 2)).watches_r 1 = some "/a") ∧
    ((remove_watch (fun _ => true) reg_a "/a" (some true)).1.watches "/a" = none ∧
     (remove_watch (fun _ => true) reg_a "/a" (some true)).1.watches_r 1 = none ∧
     (remove_watch_with_id (fun _ => true) reg_a 1 (some true)).1.watches "/a" = none ∧
     (remove_watch_with_id (fun _ => true) reg_a 1 (some true)).1.watches_r 1 = none) :=
  ⟨C5_registry_bijection.1 (fun _ => true)
      [RegOp.add "/a" 5 1, RegOp.add "/b" 5 2, RegOp.remove "/a" (some false)] (by decide),
   C5_registry_bijection.2.1 emptyRegistry "/a" 5 1 rfl rfl,
   C5_registry_bijection.2.2.1 (fun _ => true) reg_a "/a" 1 (RegOp.add "/b" 5 2)
     regInv_reg_a (by simp [reg_a]) (Or.inr (by decide)),
   C5_registry_bijection.2.2.2 (fun _ => true) reg_a "/a" 1 (some true)
     regInv_reg_a (by simp [reg_a]) (by simp)⟩

/-! ## Claim C1: kind evaluation order -- filter stop versus terminal -/

/-- Counterexample to C1 as stated: a queue-overflow event whose kind the
filter rejects ends the stream with a normal filter stop (the `if` branch,
adapters.py line 237, runs before the `elif type_name in terminal_events`
branch), not with the terminal exception the claim requires. -/
theorem C1_counterexample :
    processEvents alwaysFalseFilter _DEFAULT_TERMINAL_EVENTS [qOverflowEvent] =
      ([], StreamEnd.filterStop "IN_Q_OVERFLOW" qOverflowEvent) ∧
    ([] , StreamEnd.filterStop "IN_Q_OVERFLOW" qOverflowEvent) ≠
      (([] : List StreamEvent), StreamEnd.terminal "IN_Q_OVERFLOW" qOverflowEvent) := by
  constructor
  · rfl
  · decide

/-- Claim C1 (amended): the kinds of a decoded event are evaluated
independently, in order.  For each kind, first the filter is consulted: a
definite Python-`False` reply ends the stream normally (no exception); only
otherwise, if the kind is in `terminal_events`, the stream aborts with the
terminal exception carrying that kind.  At stream level, an event whose kind
loop raises the terminal exception ends the stream carrying that kind and
that exact event with no further events emitted, and symmetrically a filter
stop ends it normally; so an event both terminal and filter-rejected ends
the stream with the filter stop, not the terminal exception. -/
theorem C1_filter_checked_before_terminal :
    (∀ fp te (e : StreamEvent), processKinds fp te e [] = KindOutcome.yield) ∧
    (∀ fp te (e : StreamEvent) tn rest, filter_is_false fp tn e = true →
        processKinds fp te e (tn :: rest) = KindOutcome.stop tn) ∧
    (∀ fp te (e : StreamEvent) tn rest, filter_is_false fp tn e = false →
        te.contains tn = true →
        processKinds fp te e (tn :: rest) = KindOutcome.terminal tn) ∧
    (∀ fp te (e : StreamEvent) tn rest, filter_is_false fp tn e = false →
        te.contains tn = false →
        processKinds fp te e (tn :: rest) = processKinds fp te e rest) ∧
    (∀ fp te (e : StreamEvent) tn pre post,
        (∀ e' ∈ pre, processKinds fp te e' e'.type_names = KindOutcome.yield) →
        processKinds fp te e e.type_names = KindOutcome.terminal tn →
        processEvents fp te (pre ++ e :: post) = (pre, StreamEnd.terminal tn e)) ∧
    (∀ fp te (e : StreamEvent) tn pre post,
        (∀ e' ∈ pre, processKinds fp te e' e'.type_names = KindOutcome.yield) →
        processKinds fp te e e.type_names = KindOutcome.stop tn →
        processEvents fp te (pre ++ e :: post) = (pre, StreamEnd.filterStop tn e)) := by
  refine ⟨?k0, ?k1, ?k2, ?k3, ?s1, ?s2⟩
  case k0 => intro fp te e; rfl
  case k1 =>
    intro fp te e tn rest h
    unfold processKinds
    rw [if_pos h]
  case k2 =>
    intro fp te e tn rest h1 h2
    unfold processKinds
    rw [if_neg (by simp [h1]), if_pos h2]
  case k3 =>
    intro fp te e tn rest h1 h2
    unfold processKinds
    rw [if_neg (by simp [h1]), if_neg (by rw [h2]; exact Bool.false_ne_true)]
    cases rest with
    | nil => rfl
    | cons a l => rfl
  case s1 =>
    intro fp te e tn pre post hpre he
    induction pre with
    | nil =>
      show processEvents fp te (e :: post) = _
      unfold processEvents
      rw [he]
    | cons a pre ih =>
      have ha : processKinds fp te a a.type_names = KindOutcome.yield :=
        hpre a (List.mem_cons_self a pre)
      have hpre' : ∀ e' ∈ pre, processKinds fp te e' e'.type_names = KindOutcome.yield :=
        fun e' h' => hpre e' (List.mem_cons_of_mem a h')
      show processEvents fp te (a :: (pre ++ e :: post)) = _
      unfold processEvents
      rw [ha, ih hpre']
  case s2 =>
    intro fp te e tn pre post hpre he
    induction pre with
    | nil =>
      show processEvents fp te (e :: post) = _
      unfold processEvents
      rw [he]
    | cons a pre ih =>
      have ha : processKinds fp te a a.type_names = KindOutcome.yield :=
        hpre a (List.mem_cons_self a pre)
      have hpre' : ∀ e' ∈ pre, processKinds fp te e' e'.type_names = KindOutcome.yield :=
        fun e' h' => hpre e' (List.mem_cons_of_mem a h')
      show processEvents fp te (a :: (pre ++ e :: post)) = _
      unfold processEvents
      rw [ha, ih hpre']

/-- Witness for C1 (amended) at concrete inputs: with no filter a
queue-overflow kind is terminal, with the always-`False` filter it is a
filter stop, and the stream ends accordingly with no further events. -/
theorem C1_witness :
    processKinds none _DEFAULT_TERMINAL_EVENTS qOverflowEvent ["IN_Q_OVERFLOW"] =
      KindOutcome.terminal "IN_Q_OVERFLOW" ∧
    processEvents none _DEFAULT_TERMINAL_EVENTS [qOverflowEvent, createEvent] =
      ([], StreamEnd.terminal "IN_Q_OVERFLOW" qOverflowEvent) ∧
    processEvents alwaysFalseFilter _DEFAULT_TERMINAL_EVENTS [qOverflowEvent, createEvent] =
      ([], StreamEnd.filterStop "IN_Q_OVERFLOW" qOverflowEvent) :=
  ⟨C1_filter_checked_before_terminal.2.2.1 none _DEFAULT_TERMINAL_EVENTS
      qOverflowEvent "IN_Q_OVERFLOW" [] rfl rfl,
   C1_filter_checked_before_terminal.2.2.2.2.1 none _DEFAULT_TERMINAL_EVENTS
      qOverflowEvent "IN_Q_OVERFLOW" [] [createEvent]
      (by intro e' h'; cases h') (by rfl),
   C1_filter_checked_before_terminal.2.2.2.2.2 alwaysFalseFilter _DEFAULT_TERMINAL_EVENTS
      qOverflowEvent "IN_Q_OVERFLOW" [] [createEvent]
      (by intro e' h'; cases h') (by rfl)⟩

/-! ## Claim C2: idle markers -/

/-- Counterexample to C2 as stated: an iteration that delivered the real
event `createEvent` still ends with `yield None` (adapters.py line 254 runs
every iteration when `yield_nones` is true), so an idle marker is emitted in
an iteration that produced a real event. -/
theorem C2_counterexample :
    (iterStep true none _DEFAULT_TERMINAL_EVENTS false [createEvent]).1 =
      [some createEvent, none] ∧
    some createEvent ∈ (iterStep true none _DEFAULT_TERMINAL_EVENTS false [createEvent]).1 ∧
    (none : Option StreamEvent) ∈ (iterStep true none _DEFAULT_TERMINAL_EVENTS false [createEvent]).1 := by
  refine ⟨rfl, ?_, ?_⟩ <;> decide

/-- Claim C2 (amended): when `yield_nones` is true, `event_gen` yields
exactly one idle marker (`None`) at the end of every outer-loop iteration
that neither hit the inactivity timeout nor ended the stream via a filter
stop or a terminal kind -- regardless of whether real events were delivered
in that iteration (so an idle iteration yields exactly one `None`, and an
event-producing iteration also yields one, after its events); when
`yield_nones` is false no idle marker is yielded; and an iteration that hits
the timeout yields its events and no idle marker. -/
theorem C2_one_idle_marker_per_iteration
    (fp : Option (String → StreamEvent → Option Bool)) (te : List String)
    (evs ys : List StreamEvent) (yn : Bool)
    (h : processEvents fp te evs = (ys, StreamEnd.exhausted)) :
    (iterStep yn fp te false evs).1 = ys.map some ++ (if yn then [none] else []) ∧
    (iterStep true fp te false evs).1.count none = 1 ∧
    (iterStep false fp te false evs).1.count none = 0 ∧
    (iterStep yn fp te true evs).1 = ys.map some := by
  have hmap : ∀ l : List StreamEvent, (l.map some).count (none : Option StreamEvent) = 0 := by
    intro l
    rw [List.count_eq_zero]
    simp
  unfold iterStep
  rw [h]
  refine ⟨rfl, ?_, ?_, rfl⟩
  · show ((ys.map some) ++ [none]).count (none : Option StreamEvent) = 1
    rw [List.count_append, hmap ys]
    rfl
  · show ((ys.map some) ++ []).count (none : Option StreamEvent) = 0
    rw [List.append_nil]
    exact hmap ys

/-- Witness for C2 (amended): the iteration that decoded `createEvent`. -/
theorem C2_witness :
    (iterStep true none _DEFAULT_TERMINAL_EVENTS false [createEvent]).1 =
      [createEvent].map some ++ (if true then [none] else []) ∧
    (iterStep true none _DEFAULT_TERMINAL_EVENTS false [createEvent]).1.count none = 1 ∧
    (iterStep false none _DEFAULT_TERMINAL_EVENTS false [createEvent]).1.count none = 0 ∧
    (iterStep true none _DEFAULT_TERMINAL_EVENTS true [createEvent]).1 = [createEvent].map some :=
  C2_one_idle_marker_per_iteration none _DEFAULT_TERMINAL_EVENTS
    [createEvent] [createEvent] true rfl

/-! ## Tree synchronizer shape lemmas -/

theorem tree_handle_new_dir_pos (path_exists : String → Bool) (wd : Int) (tmask : Nat)
    (ig : Bool) (r : Registry) (mask : Nat) (fp : String)
    (h : (mask &&& IN_MOVED_TO ≠ 0 ∨ mask &&& IN_CREATE ≠ 0)
      ∧ (path_exists fp = true ∨ ig = false)) :
    tree_handle_new_dir path_exists wd tmask ig r mask fp =
      ((add_watch r fp tmask wd).1, [ICall.add fp tmask],
        (add_watch r fp tmask wd).2.1) := by
  unfold tree_handle_new_dir
  rw [if_pos h]

theorem tree_handle_new_dir_neg (path_exists : String → Bool) (wd : Int) (tmask : Nat)
    (ig : Bool) (r : Registry) (mask : Nat) (fp : String)
    (h : ¬((mask &&& IN_MOVED_TO ≠ 0 ∨ mask &&& IN_CREATE ≠ 0)
      ∧ (path_exists fp = true ∨ ig = false))) :
    tree_handle_new_dir path_exists wd tmask ig r mask fp = (r, [], []) := by
  unfold tree_handle_new_dir
  rw [if_neg h]

theorem treeStep_nodir (pjoin : String → String → String) (path_exists : String → Bool)
    (rmOk : Int → Bool) (wd : Int) (tmask : Nat) (ig : Bool) (r : Registry)
    (ev : StreamEvent) (hdir : ev.header.mask &&& IN_ISDIR = 0) :
    treeStep pjoin path_exists rmOk wd tmask ig r ev = ⟨r, [], [], false⟩ := by
  unfold treeStep
  rw [if_neg (fun hne => hne hdir)]

theorem treeStep_delete (pjoin : String → String → String) (path_exists : String → Bool)
    (rmOk : Int → Bool) (wd : Int) (tmask : Nat) (ig : Bool) (r : Registry)
    (ev : StreamEvent) (hdir : ev.header.mask &&& IN_ISDIR ≠ 0)
    (hdel : ev.header.mask &&& IN_DELETE ≠ 0) :
    treeStep pjoin path_exists rmOk wd tmask ig r ev =
      (let fp := pjoin ev.path ev.filename
       let s1 := tree_handle_new_dir path_exists wd tmask ig r ev.header.mask fp
       let out := remove_watch rmOk s1.1 fp (some true)
       ⟨out.1, s1.2.1 ++ [ICall.remove fp (some true)], s1.2.2 ++ out.2.1, out.2.2⟩) := by
  unfold treeStep
  rw [if_pos hdir]
  dsimp only
  rw [if_pos hdel]

theorem treeStep_moved_from (pjoin : String → String → String) (path_exists : String → Bool)
    (rmOk : Int → Bool) (wd : Int) (tmask : Nat) (ig : Bool) (r : Registry)
    (ev : StreamEvent) (hdir : ev.header.mask &&& IN_ISDIR ≠ 0)
    (hdel : ev.header.mask &&& IN_DELETE = 0)
    (hmf : ev.header.mask &&& IN_MOVED_FROM ≠ 0) :
    treeStep pjoin path_exists rmOk wd tmask ig r ev =
      (let fp := pjoin ev.path ev.filename
       let s1 := tree_handle_new_dir path_exists wd tmask ig r ev.header.mask fp
       let out := remove_watch rmOk s1.1 fp (some false)
       ⟨out.1, s1.2.1 ++ [ICall.remove fp (some false)], s1.2.2 ++ out.2.1, false⟩) := by
  unfold treeStep
  rw [if_pos hdir]
  dsimp only
  rw [if_neg (fun hne => hne hdel), if_pos hmf]

theorem treeStep_plain (pjoin : String → String → String) (path_exists : String → Bool)
    (rmOk : Int → Bool) (wd : Int) (tmask : Nat) (ig : Bool) (r : Registry)
    (ev : StreamEvent) (hdir : ev.header.mask &&& IN_ISDIR ≠ 0)
    (hdel : ev.header.mask &&& IN_DELETE = 0)
    (hmf : ev.header.mask &&& IN_MOVED_FROM = 0) :
    treeStep pjoin path_exists rmOk wd tmask ig r ev =
      (let fp := pjoin ev.path ev.filename
       let s1 := tree_handle_new_dir path_exists wd tmask ig r ev.header.mask fp
       ⟨s1.1, s1.2.1, s1.2.2, false⟩) := by
  unfold treeStep
  rw [if_pos hdir]
  dsimp only
  rw [if_neg (fun hne => hne hdel), if_neg (fun hne => hne hmf)]

/-- The add phase on an already-watched path changes nothing and calls no
kernel function. -/
theorem tree_handle_new_dir_watched (path_exists : String → Bool) (wd : Int)
    (tmask : Nat) (ig : Bool) (r : Registry) (mask : Nat) (fp : String)
    (h : (r.watches fp).isSome) :
    (tree_handle_new_dir path_exists wd tmask ig r mask fp).1 = r ∧
    (tree_handle_new_dir path_exists wd tmask ig r mask fp).2.2 = [] := by
  have ha : add_watch r fp tmask wd = (r, [], false) := by
    unfold add_watch
    rw [if_pos h]
  by_cases hc : (mask &&& IN_MOVED_TO ≠ 0 ∨ mask &&& IN_CREATE ≠ 0)
      ∧ (path_exists fp = true ∨ ig = false)
  · rw [tree_handle_new_dir_pos _ _ _ _ _ _ _ hc, ha]
    exact ⟨rfl, rfl⟩
  · rw [tree_handle_new_dir_neg _ _ _ _ _ _ _ hc]
    exact ⟨rfl, rfl⟩

/-- Every call the add phase records is an add. -/
theorem tree_handle_new_dir_icalls (path_exists : String → Bool) (wd : Int)
    (tmask : Nat) (ig : Bool) (r : Registry) (mask : Nat) (fp : String) :
    ∀ q s, ICall.remove q s ∉ (tree_handle_new_dir path_exists wd tmask ig r mask fp).2.1 := by
  intro q s
  by_cases hc : (mask &&& IN_MOVED_TO ≠ 0 ∨ mask &&& IN_CREATE ≠ 0)
      ∧ (path_exists fp = true ∨ ig = false)
  · rw [tree_handle_new_dir_pos _ _ _ _ _ _ _ hc]
    simp
  · rw [tree_handle_new_dir_neg _ _ _ _ _ _ _ hc]
    simp

/-- The add phase never makes a kernel de-registration call. -/
theorem tree_handle_new_dir_no_rm (path_exists : String → Bool) (wd : Int)
    (tmask : Nat) (ig : Bool) (r : Registry) (mask : Nat) (fp : String) :
    ∀ v, KernelCall.rmWatch v ∉ (tree_handle_new_dir path_exists wd tmask ig r mask fp).2.2 := by
  intro v
  by_cases hc : (mask &&& IN_MOVED_TO ≠ 0 ∨ mask &&& IN_CREATE ≠ 0)
      ∧ (path_exists fp = true ∨ ig = false)
  · rw [tree_handle_new_dir_pos _ _ _ _ _ _ _ hc]
    by_cases hs : (r.watches fp).isSome
    · have : add_watch r fp tmask wd = (r, [], false) := by
        unfold add_watch
        rw [if_pos hs]
      rw [this]
      simp
    · have : add_watch r fp tmask wd =
          ({ watches := dset r.watches fp wd, watches_r := dset r.watches_r wd fp },
           [KernelCall.addWatch fp tmask], false) := by
        unfold add_watch
        rw [if_neg hs]
      rw [this]
      simp
  · rw [tree_handle_new_dir_neg _ _ _ _ _ _ _ hc]
    simp

/-- Registry-only removal makes no kernel call and raises nothing. -/
theorem remove_watch_true_quiet (rmOk : Int → Bool) (r : Registry) (p : String) :
    (remove_watch rmOk r p (some true)).2.1 = [] ∧
    (remove_watch rmOk r p (some true)).2.2 = false := by
  cases hx : r.watches p with
  | none => rw [remove_watch_eq_none rmOk r p _ hx]; exact ⟨rfl, rfl⟩
  | some wd => rw [remove_watch_eq_some rmOk r p _ wd hx, _remove_watch_true]; exact ⟨rfl, rfl⟩

/-! ## Claim C7: delete versus moved-from removal modes -/

/-- Claim C7: for a directory event, on delete the tree synchronizer removes
the registry entry in registry-only mode -- both maps drop the entry, no
kernel de-registration call happens, nothing is raised; on moved-from it
removes the entry in full mode -- both maps drop the entry and the kernel
de-registration call is made -- and a failure of that kernel call
(`rmOk w = false` makes the inner removal raise) is swallowed, not
propagated. -/
theorem C7_removal_modes :
    (∀ (pjoin : String → String → String) (path_exists : String → Bool)
        (rmOk : Int → Bool) (wd : Int) (tmask : Nat) (ig : Bool) (r : Registry)
        (ev : StreamEvent) (w : Int),
      ev.header.mask &&& IN_ISDIR ≠ 0 →
      ev.header.mask &&& IN_DELETE ≠ 0 →
      r.watches (pjoin ev.path ev.filename) = some w →
      (treeStep pjoin path_exists rmOk wd tmask ig r ev).reg.watches
          (pjoin ev.path ev.filename) = none ∧
      (treeStep pjoin path_exists rmOk wd tmask ig r ev).reg.watches_r w = none ∧
      (treeStep pjoin path_exists rmOk wd tmask ig r ev).kcalls = [] ∧
      ICall.remove (pjoin ev.path ev.filename) (some true) ∈
          (treeStep pjoin path_exists rmOk wd tmask ig r ev).icalls ∧
      (treeStep pjoin path_exists rmOk wd tmask ig r ev).raised = false) ∧
    (∀ (pjoin : String → String → String) (path_exists : String → Bool)
        (rmOk : Int → Bool) (wd : Int) (tmask : Nat) (ig : Bool) (r : Registry)
        (ev : StreamEvent) (w : Int),
      ev.header.mask &&& IN_ISDIR ≠ 0 →
      ev.header.mask &&& IN_DELETE = 0 →
      ev.header.mask &&& IN_MOVED_FROM ≠ 0 →
      r.watches (pjoin ev.path ev.filename) = some w →
      (treeStep pjoin path_exists rmOk wd tmask ig r ev).reg.watches
          (pjoin ev.path ev.filename) = none ∧
      (treeStep pjoin path_exists rmOk wd tmask ig r ev).reg.watches_r w = none ∧
      KernelCall.rmWatch w ∈ (treeStep pjoin path_exists rmOk wd tmask ig r ev).kcalls ∧
      (treeStep pjoin path_exists rmOk wd tmask ig r ev).raised = false ∧
      (remove_watch rmOk r (pjoin ev.path ev.filename) (some false)).2.2 = !rmOk w) := by
  constructor
  · intro pjoin path_exists rmOk wd tmask ig r ev w hdir hdel hreg
    rw [treeStep_delete pjoin path_exists rmOk wd tmask ig r ev hdir hdel]
    dsimp only
    have hw := tree_handle_new_dir_watched path_exists wd tmask ig r ev.header.mask
      (pjoin ev.path ev.filename) (by rw [hreg]; rfl)
    rw [hw.1, hw.2,
      remove_watch_eq_some rmOk r (pjoin ev.path ev.filename) (some true) w hreg,
      _remove_watch_true]
    refine ⟨ddel_same _ _, ddel_same _ _, rfl, ?_, rfl⟩
    simp
  · intro pjoin path_exists rmOk wd tmask ig r ev w hdir hdel hmf hreg
    rw [treeStep_moved_from pjoin path_exists rmOk wd tmask ig r ev hdir hdel hmf]
    dsimp only
    have hw := tree_handle_new_dir_watched path_exists wd tmask ig r ev.header.mask
      (pjoin ev.path ev.filename) (by rw [hreg]; rfl)
    rw [hw.1, hw.2,
      remove_watch_eq_some rmOk r (pjoin ev.path ev.filename) (some false) w hreg,
      _remove_watch_false]
    refine ⟨ddel_same _ _, ddel_same _ _, ?_, rfl, rfl⟩
    simp

/-- Witness for C7 on `reg_w`: a directory delete and a directory moved-from
of `/w/d` (watch 3), with a kernel whose removal call always fails. -/
theorem C7_witness :
    ((treeStep samplePjoin (fun _ => true) (fun _ => false) 9 5 false reg_w
        deleteDirEvent).reg.watches (samplePjoin "/w" "d") = none ∧
     (treeStep samplePjoin (fun _ => true) (fun _ => false) 9 5 false reg_w
        deleteDirEvent).reg.watches_r 3 = none ∧
     (treeStep samplePjoin (fun _ => true) (fun _ => false) 9 5 false reg_w
        deleteDirEvent).kcalls = [] ∧
     ICall.remove (samplePjoin "/w" "d") (some true) ∈
        (treeStep samplePjoin (fun _ => true) (fun _ => false) 9 5 false reg_w
          deleteDirEvent).icalls ∧
     (treeStep samplePjoin (fun _ => true) (fun _ => false) 9 5 false reg_w
        deleteDirEvent).raised = false) ∧
    ((treeStep samplePjoin (fun _ => true) (fun _ => false) 9 5 false reg_w
        movedDirEvent).reg.watches (samplePjoin "/w" "d") = none ∧
     (treeStep samplePjoin (fun _ => true) (fun _ => false) 9 5 false reg_w
        movedDirEvent).reg.watches_r 3 = none ∧
     KernelCall.rmWatch 3 ∈
        (treeStep samplePjoin (fun _ => true) (fun _ => false) 9 5 false reg_w
          movedDirEvent).kcalls ∧
     (treeStep samplePjoin (fun _ => true) (fun _ => false) 9 5 false reg_w
        movedDirEvent).raised = false ∧
     (remove_watch (fun _ => false) reg_w (samplePjoin "/w" "d") (some false)).2.2 =
        !(fun _ : Int => false) 3) :=
  ⟨C7_removal_modes.1 samplePjoin (fun _ => true) (fun _ => false) 9 5 false reg_w
      deleteDirEvent 3 (by decide) (by decide) (by decide),
   C7_removal_modes.2 samplePjoin (fun _ => true) (fun _ => false) 9 5 false reg_w
      movedDirEvent 3 (by decide) (by decide) (by decide) (by decide)⟩

/-! ## Claim C8: watch installation policy for new directories -/

/-- `treeStep` never lets an exception escape. -/
theorem treeStep_raised_false (pjoin : String → String → String)
    (path_exists : String → Bool) (rmOk : Int → Bool) (wd : Int) (tmask : Nat)
    (ig : Bool) (r : Registry) (ev : StreamEvent) :
    (treeStep pjoin path_exists rmOk wd tmask ig r ev).raised = false := by
  by_cases hdir : ev.header.mask &&& IN_ISDIR ≠ 0
  · by_cases hdel : ev.header.mask &&& IN_DELETE ≠ 0
    · rw [treeStep_delete pjoin path_exists rmOk wd tmask ig r ev hdir hdel]
      dsimp only
      exact (remove_watch_true_quiet rmOk _ _).2
    · have hdel0 : ev.header.mask &&& IN_DELETE = 0 := by
        by_contra hc
        exact hdel hc
      by_cases hmf : ev.header.mask &&& IN_MOVED_FROM ≠ 0
      · rw [treeStep_moved_from pjoin path_exists rmOk wd tmask ig r ev hdir hdel0 hmf]
      · have hmf0 : ev.header.mask &&& IN_MOVED_FROM = 0 := by
          by_contra hc
          exact hmf hc
        rw [treeStep_plain pjoin path_exists rmOk wd tmask ig r ev hdir hdel0 hmf0]
  · have hdir0 : ev.header.mask &&& IN_ISDIR = 0 := by
      by_contra hc
      exact hdir hc
    rw [treeStep_nodir pjoin path_exists rmOk wd tmask ig r ev hdir0]

/-- Under a directory event, the recorded calls into the `Inotify` object are
the add phase's calls followed by a tail holding no add. -/
theorem treeStep_icalls_split (pjoin : String → String → String)
    (path_exists : String → Bool) (rmOk : Int → Bool) (wd : Int) (tmask : Nat)
    (ig : Bool) (r : Registry) (ev : StreamEvent)
    (hdir : ev.header.mask &&& IN_ISDIR ≠ 0) :
    ∃ tail : List ICall,
      (treeStep pjoin path_exists rmOk wd tmask ig r ev).icalls =
        (tree_handle_new_dir path_exists wd tmask ig r ev.header.mask
          (pjoin ev.path ev.filename)).2.1 ++ tail ∧
      ∀ q mm, ICall.add q mm ∉ tail := by
  by_cases hdel : ev.header.mask &&& IN_DELETE ≠ 0
  · refine ⟨[ICall.remove (pjoin ev.path ev.filename) (some true)], ?_, ?_⟩
    · rw [treeStep_delete pjoin path_exists rmOk wd tmask ig r ev hdir hdel]
    · intro q mm
      simp
  · have hdel0 : ev.header.mask &&& IN_DELETE = 0 := by
      by_contra hc
      exact hdel hc
    by_cases hmf : ev.header.mask &&& IN_MOVED_FROM ≠ 0
    · refine ⟨[ICall.remove (pjoin ev.path ev.filename) (some false)], ?_, ?_⟩
      · rw [treeStep_moved_from pjoin path_exists rmOk wd tmask ig r ev hdir hdel0 hmf]
      · intro q mm
        simp
    · have hmf0 : ev.header.mask &&& IN_MOVED_FROM = 0 := by
        by_contra hc
        exact hmf hc
      refine ⟨[], ?_, ?_⟩
      · rw [treeStep_plain pjoin path_exists rmOk wd tmask ig r ev hdir hdel0 hmf0]
        simp
      · intro q mm
        simp

/-- Claim C8: for a directory event carrying a create or moved-to kind, the
tree synchronizer invokes `add_watch` on the joined path with the tree's
effective mask exactly when the directory still exists at processing time or
the existence check is skipped (`ignore_missing_new_folders = false`); when
the directory is missing and the check is enabled, no watch is installed and
nothing is raised; and when the install does run on an unwatched path, the
registry gains the watch under the kernel-returned id. -/
theorem C8_new_directory_watch_policy
    (pjoin : String → String → String) (path_exists : String → Bool)
    (rmOk : Int → Bool) (wd : Int) (m : Nat) (ig : Bool) (r : Registry)
    (ev : StreamEvent)
    (hdir : ev.header.mask &&& IN_ISDIR ≠ 0)
    (hcm : ev.header.mask &&& IN_MOVED_TO ≠ 0 ∨ ev.header.mask &&& IN_CREATE ≠ 0) :
    (ICall.add (pjoin ev.path ev.filename) (effective_mask m) ∈
        (treeStep pjoin path_exists rmOk wd (effective_mask m) ig r ev).icalls ↔
      (path_exists (pjoin ev.path ev.filename) = true ∨ ig = false)) ∧
    (path_exists (pjoin ev.path ev.filename) = false → ig = true →
      ICall.add (pjoin ev.path ev.filename) (effective_mask m) ∉
        (treeStep pjoin path_exists rmOk wd (effective_mask m) ig r ev).icalls ∧
      (treeStep pjoin path_exists rmOk wd (effective_mask m) ig r ev).raised = false) ∧
    ((path_exists (pjoin ev.path ev.filename) = true ∨ ig = false) →
      r.watches (pjoin ev.path ev.filename) = none →
      ev.header.mask &&& IN_DELETE = 0 →
      ev.header.mask &&& IN_MOVED_FROM = 0 →
      (treeStep pjoin path_exists rmOk wd (effective_mask m) ig r ev).reg.watches
          (pjoin ev.path ev.filename) = some wd ∧
      (treeStep pjoin path_exists rmOk wd (effective_mask m) ig r ev).reg.watches_r
          wd = some (pjoin ev.path ev.filename)) := by
  obtain ⟨tail, htail, hnoadd⟩ :=
    treeStep_icalls_split pjoin path_exists rmOk wd (effective_mask m) ig r ev hdir
  have hmem : (ICall.add (pjoin ev.path ev.filename) (effective_mask m) ∈
      (treeStep pjoin path_exists rmOk wd (effective_mask m) ig r ev).icalls ↔
    (path_exists (pjoin ev.path ev.filename) = true ∨ ig = false)) := by
    rw [htail]
    constructor
    · intro hin
      rcases List.mem_append.mp hin with hin1 | hin2
      · by_cases hc2 : path_exists (pjoin ev.path ev.filename) = true ∨ ig = false
        · exact hc2
        · rw [tree_handle_new_dir_neg _ _ _ _ _ _ _ (fun hand => hc2 hand.2)] at hin1
          cases hin1
      · exact absurd hin2 (hnoadd _ _)
    · intro hc2
      rw [tree_handle_new_dir_pos _ _ _ _ _ _ _ ⟨hcm, hc2⟩]
      exact List.mem_append_left _ (by simp)
  refine ⟨hmem, ?_, ?_⟩
  · intro hne hig
    refine ⟨?_, treeStep_raised_false pjoin path_exists rmOk wd (effective_mask m) ig r ev⟩
    intro hin
    rcases hmem.mp hin with hx | hx
    · rw [hne] at hx
      cases hx
    · rw [hig] at hx
      cases hx
  · intro hc2 hnone hdel0 hmf0
    rw [treeStep_plain pjoin path_exists rmOk wd (effective_mask m) ig r ev hdir hdel0 hmf0]
    dsimp only
    rw [tree_handle_new_dir_pos _ _ _ _ _ _ _ ⟨hcm, hc2⟩]
    have hps : ¬(r.watches (pjoin ev.path ev.filename)).isSome := by
      rw [hnone]
      simp
    show (add_watch r (pjoin ev.path ev.filename) (effective_mask m) wd).1.watches
        (pjoin ev.path ev.filename) = some wd ∧
      (add_watch r (pjoin ev.path ev.filename) (effective_mask m) wd).1.watches_r wd =
        some (pjoin ev.path ev.filename)
    unfold add_watch
    rw [if_neg hps]
    exact ⟨dset_same _ _ _, dset_same _ _ _⟩

/-- Witness for C8: a directory-create event with the directory present and
the check enabled (watch installed on the empty registry), and with the
directory missing and the check enabled (no install, nothing raised). -/
theorem C8_witness :
    (ICall.add (samplePjoin "/w" "d") (effective_mask 4095) ∈
        (treeStep samplePjoin (fun _ => true) (fun _ => true) 3 (effective_mask 4095)
          true emptyRegistry createDirEvent).icalls ↔
      ((fun _ : String => true) (samplePjoin "/w" "d") = true ∨ true = false)) ∧
    (ICall.add (samplePjoin "/w" "d") (effective_mask 4095) ∉
        (treeStep samplePjoin (fun _ => false) (fun _ => true) 3 (effective_mask 4095)
          true emptyRegistry createDirEvent).icalls ∧
      (treeStep samplePjoin (fun _ => false) (fun _ => true) 3 (effective_mask 4095)
        true emptyRegistry createDirEvent).raised = false) ∧
    ((treeStep samplePjoin (fun _ => true) (fun _ => true) 3 (effective_mask 4095)
        true emptyRegistry createDirEvent).reg.watches (samplePjoin "/w" "d") = some 3 ∧
     (treeStep samplePjoin (fun _ => true) (fun _ => true) 3 (effective_mask 4095)
        true emptyRegistry createDirEvent).reg.watches_r 3 = some (samplePjoin "/w" "d")) :=
  ⟨(C8_new_directory_watch_policy samplePjoin (fun _ => true) (fun _ => true) 3 4095
      true emptyRegistry createDirEvent (by decide) (by decide)).1,
   (C8_new_directory_watch_policy samplePjoin (fun _ => false) (fun _ => true) 3 4095
      true emptyRegistry createDirEvent (by decide) (by decide)).2.1 rfl rfl,
   (C8_new_directory_watch_policy samplePjoin (fun _ => true) (fun _ => true) 3 4095
      true emptyRegistry createDirEvent (by decide) (by decide)).2.2
      (Or.inl rfl) rfl (by decide) (by decide)⟩

/-! ## Claim C10: delete shadows moved-from -/

/-- Claim C10: when a single directory event's mask carries both the delete
and the moved-from flags, only the delete handling runs: the registry-only
removal call is recorded, the full-mode removal call is not, and no kernel
de-registration call is made. -/
theorem C10_delete_shadows_moved_from
    (pjoin : String → String → String) (path_exists : String → Bool)
    (rmOk : Int → Bool) (wd : Int) (tmask : Nat) (ig : Bool) (r : Registry)
    (ev : StreamEvent)
    (hdir : ev.header.mask &&& IN_ISDIR ≠ 0)
    (hdel : ev.header.mask &&& IN_DELETE ≠ 0)
    (hmf : ev.header.mask &&& IN_MOVED_FROM ≠ 0) :
    ICall.remove (pjoin ev.path ev.filename) (some true) ∈
      (treeStep pjoin path_exists rmOk wd tmask ig r ev).icalls ∧
    ICall.remove (pjoin ev.path ev.filename) (some false) ∉
      (treeStep pjoin path_exists rmOk wd tmask ig r ev).icalls ∧
    (∀ v, KernelCall.rmWatch v ∉ (treeStep pjoin path_exists rmOk wd tmask ig r ev).kcalls) := by
  rw [treeStep_delete pjoin path_exists rmOk wd tmask ig r ev hdir hdel]
  dsimp only
  refine ⟨List.mem_append_right _ (by simp), ?_, ?_⟩
  · intro hin
    rcases List.mem_append.mp hin with hin1 | hin2
    · exact tree_handle_new_dir_icalls path_exists wd tmask ig r ev.header.mask
        (pjoin ev.path ev.filename) _ _ hin1
    · simp at hin2
  · intro v hin
    rcases List.mem_append.mp hin with hin1 | hin2
    · exact tree_handle_new_dir_no_rm path_exists wd tmask ig r ev.header.mask
        (pjoin ev.path ev.filename) v hin1
    · rw [(remove_watch_true_quiet rmOk _ _).1] at hin2
      cases hin2

/-- Witness for C10: the synthetic event carrying delete and moved-from. -/
theorem C10_witness :
    ICall.remove (samplePjoin "/w" "d") (some true) ∈
      (treeStep samplePjoin (fun _ => true) (fun _ => true) 9 5 false reg_w
        bothDirEvent).icalls ∧
    ICall.remove (samplePjoin "/w" "d") (some false) ∉
      (treeStep samplePjoin (fun _ => true) (fun _ => true) 9 5 false reg_w
        bothDirEvent).icalls ∧
    (∀ v, KernelCall.rmWatch v ∉
      (treeStep samplePjoin (fun _ => true) (fun _ => true) 9 5 false reg_w
        bothDirEvent).kcalls) :=
  C10_delete_shadows_moved_from samplePjoin (fun _ => true) (fun _ => true) 9 5 false reg_w
    bothDirEvent (by decide) (by decide) (by decide)

/-! ## Decoder lemmas -/

/-- Fewer bytes than a header: the loop returns at once, consuming nothing. -/
theorem parseLoop_short (lookup : Nat → Option (List String)) (wr : Int → Option String)
    (buf : List Nat) (h : buf.length < _STRUCT_HEADER_LENGTH) :
    parseLoop lookup wr buf = ([], Except.ok buf) := by
  unfold parseLoop
  rw [dif_pos h]

/-- An unrecognized bitmask raises the assertion. -/
theorem parseLoop_assert (lookup : Nat → Option (List String)) (wr : Int → Option String)
    (buf : List Nat) (h16 : ¬buf.length < _STRUCT_HEADER_LENGTH)
    (hlk : lookup (parseHeader (buf.take _STRUCT_HEADER_LENGTH)).mask = none) :
    parseLoop lookup wr buf =
      ([], Except.error (parseHeader (buf.take _STRUCT_HEADER_LENGTH)).mask) := by
  unfold parseLoop
  rw [dif_neg h16]
  dsimp only
  rw [hlk]

/-- A full header but an incomplete record: the loop stops, consuming
nothing -- not even the header. -/
theorem parseLoop_incomplete (lookup : Nat → Option (List String)) (wr : Int → Option String)
    (buf : List Nat) (tns : List String)
    (h16 : ¬buf.length < _STRUCT_HEADER_LENGTH)
    (hlk : lookup (parseHeader (buf.take _STRUCT_HEADER_LENGTH)).mask = some tns)
    (hel : buf.length < _STRUCT_HEADER_LENGTH + (parseHeader (buf.take _STRUCT_HEADER_LENGTH)).len) :
    parseLoop lookup wr buf = ([], Except.ok buf) := by
  unfold parseLoop
  rw [dif_neg h16]
  dsimp only
  rw [hlk]
  dsimp only
  rw [dif_pos hel]

/-- A complete record whose watch id is still registered is decoded and
consumed. -/
theorem parseLoop_consume_some (lookup : Nat → Option (List String)) (wr : Int → Option String)
    (buf : List Nat) (tns : List String) (path : String)
    (h16 : ¬buf.length < _STRUCT_HEADER_LENGTH)
    (hlk : lookup (parseHeader (buf.take _STRUCT_HEADER_LENGTH)).mask = some tns)
    (hel : ¬buf.length < _STRUCT_HEADER_LENGTH + (parseHeader (buf.take _STRUCT_HEADER_LENGTH)).len)
    (hwr : wr (parseHeader (buf.take _STRUCT_HEADER_LENGTH)).wd = some path) :
    parseLoop lookup wr buf =
      ((parseHeader (buf.take _STRUCT_HEADER_LENGTH), tns, path,
          rstripNul ((buf.take (_STRUCT_HEADER_LENGTH +
            (parseHeader (buf.take _STRUCT_HEADER_LENGTH)).len)).drop _STRUCT_HEADER_LENGTH)) ::
        (parseLoop lookup wr (buf.drop (_STRUCT_HEADER_LENGTH +
          (parseHeader (buf.take _STRUCT_HEADER_LENGTH)).len))).1,
       (parseLoop lookup wr (buf.drop (_STRUCT_HEADER_LENGTH +
          (parseHeader (buf.take _STRUCT_HEADER_LENGTH)).len))).2) := by
  conv_lhs => rw [parseLoop]
  rw [dif_neg h16]
  dsimp only
  rw [hlk]
  dsimp only
  rw [dif_neg hel]
  rw [hwr]

/-- A complete record whose watch id is unknown is consumed but not emitted. -/
theorem parseLoop_consume_none (lookup : Nat → Option (List String)) (wr : Int → Option String)
    (buf : List Nat) (tns : List String)
    (h16 : ¬buf.length < _STRUCT_HEADER_LENGTH)
    (hlk : lookup (parseHeader (buf.take _STRUCT_HEADER_LENGTH)).mask = some tns)
    (hel : ¬buf.length < _STRUCT_HEADER_LENGTH + (parseHeader (buf.take _STRUCT_HEADER_LENGTH)).len)
    (hwr : wr (parseHeader (buf.take _STRUCT_HEADER_LENGTH)).wd = none) :
    parseLoop lookup wr buf =
      parseLoop lookup wr (buf.drop (_STRUCT_HEADER_LENGTH +
        (parseHeader (buf.take _STRUCT_HEADER_LENGTH)).len)) := by
  conv_lhs => rw [parseLoop]
  rw [dif_neg h16]
  dsimp only
  rw [hlk]
  dsimp only
  rw [dif_neg hel]
  rw [hwr]

/-- A buffer the parse loop hands back is stuck: running the loop on it
again consumes nothing and emits nothing. -/
theorem parseLoop_stuck (lookup : Nat → Option (List String)) (wr : Int → Option String) :
    ∀ (n : Nat) (buf evs : _) (rest : List Nat), buf.length ≤ n →
      parseLoop lookup wr buf = (evs, Except.ok rest) →
      parseLoop lookup wr rest = ([], Except.ok rest) := by
  intro n
  induction n with
  | zero =>
    intro buf evs rest hlen h
    have hb : buf.length < _STRUCT_HEADER_LENGTH := by
      simp only [_STRUCT_HEADER_LENGTH]
      omega
    rw [parseLoop_short lookup wr buf hb] at h
    injection h with h1 h2
    injection h2 with h2
    subst h2
    exact parseLoop_short lookup wr buf hb
  | succ k ih =>
    intro buf evs rest hlen h
    by_cases h16 : buf.length < _STRUCT_HEADER_LENGTH
    · rw [parseLoop_short lookup wr buf h16] at h
      injection h with h1 h2
      injection h2 with h2
      subst h2
      exact parseLoop_short lookup wr buf h16
    · cases hlk : lookup (parseHeader (buf.take _STRUCT_HEADER_LENGTH)).mask with
      | none =>
        rw [parseLoop_assert lookup wr buf h16 hlk] at h
        injection h with h1 h2
        exact Except.noConfusion h2
      | some tns =>
        by_cases hel : buf.length <
            _STRUCT_HEADER_LENGTH + (parseHeader (buf.take _STRUCT_HEADER_LENGTH)).len
        · rw [parseLoop_incomplete lookup wr buf tns h16 hlk hel] at h
          injection h with h1 h2
          injection h2 with h2
          subst h2
          exact parseLoop_incomplete lookup wr buf tns h16 hlk hel
        · have hrest : (buf.drop (_STRUCT_HEADER_LENGTH +
              (parseHeader (buf.take _STRUCT_HEADER_LENGTH)).len)).length ≤ k := by
            rw [List.length_drop]
            simp only [_STRUCT_HEADER_LENGTH] at h16 hel ⊢
            omega
          cases hwr : wr (parseHeader (buf.take _STRUCT_HEADER_LENGTH)).wd with
          | some path =>
            rw [parseLoop_consume_some lookup wr buf tns path h16 hlk hel hwr] at h
            injection h with h1 h2
            exact ih _ _ rest hrest (by rw [← h2])
          | none =>
            rw [parseLoop_consume_none lookup wr buf tns h16 hlk hel hwr] at h
            exact ih _ evs rest hrest h

/-- Feeding extra bytes after a parsed buffer: the loop emits what it emitted
on the original buffer and continues on the retained bytes plus the
extension; an assertion failure is unaffected by the extension. -/
theorem parseLoop_append (lookup : Nat → Option (List String)) (wr : Int → Option String) :
    ∀ (n : Nat) (buf : List Nat), buf.length ≤ n → ∀ ext : List Nat,
      (∀ evs rest, parseLoop lookup wr buf = (evs, Except.ok rest) →
        parseLoop lookup wr (buf ++ ext) =
          (evs ++ (parseLoop lookup wr (rest ++ ext)).1,
           (parseLoop lookup wr (rest ++ ext)).2)) ∧
      (∀ evs m, parseLoop lookup wr buf = (evs, Except.error m) →
        parseLoop lookup wr (buf ++ ext) = (evs, Except.error m)) := by
  intro n
  induction n with
  | zero =>
    intro buf hlen ext
    have hb : buf.length < _STRUCT_HEADER_LENGTH := by
      simp only [_STRUCT_HEADER_LENGTH]
      omega
    constructor
    · intro evs rest h
      rw [parseLoop_short lookup wr buf hb] at h
      injection h with h1 h2
      injection h2 with h2
      subst h2
      subst h1
      rw [List.nil_append]
    · intro evs m h
      rw [parseLoop_short lookup wr buf hb] at h
      injection h with h1 h2
      exact Except.noConfusion h2
  | succ k ih =>
    intro buf hlen ext
    by_cases h16 : buf.length < _STRUCT_HEADER_LENGTH
    · constructor
      · intro evs rest h
        rw [parseLoop_short lookup wr buf h16] at h
        injection h with h1 h2
        injection h2 with h2
        subst h2
        subst h1
        rw [List.nil_append]
      · intro evs m h
        rw [parseLoop_short lookup wr buf h16] at h
        injection h with h1 h2
        exact Except.noConfusion h2
    · have h16n : _STRUCT_HEADER_LENGTH ≤ buf.length := Nat.le_of_not_lt h16
      have htake : (buf ++ ext).take _STRUCT_HEADER_LENGTH = buf.take _STRUCT_HEADER_LENGTH :=
        List.take_append_of_le_length h16n
      have h16' : ¬(buf ++ ext).length < _STRUCT_HEADER_LENGTH := by
        rw [List.length_append]
        omega
      cases hlk : lookup (parseHeader (buf.take _STRUCT_HEADER_LENGTH)).mask with
      | none =>
        have hlk' : lookup (parseHeader ((buf ++ ext).take _STRUCT_HEADER_LENGTH)).mask = none := by
          rw [htake]
          exact hlk
        constructor
        · intro evs rest h
          rw [parseLoop_assert lookup wr buf h16 hlk] at h
          injection h with h1 h2
          exact Except.noConfusion h2
        · intro evs m h
          rw [parseLoop_assert lookup wr buf h16 hlk] at h
          injection h with h1 h2
          injection h2 with h2
          subst h1
          subst h2
          rw [parseLoop_assert lookup wr (buf ++ ext) h16' hlk', htake]
      | some tns =>
        have hlk' : lookup (parseHeader ((buf ++ ext).take _STRUCT_HEADER_LENGTH)).mask =
            some tns := by
          rw [htake]
          exact hlk
        by_cases hel : buf.length <
            _STRUCT_HEADER_LENGTH + (parseHeader (buf.take _STRUCT_HEADER_LENGTH)).len
        · constructor
          · intro evs rest h
            rw [parseLoop_incomplete lookup wr buf tns h16 hlk hel] at h
            injection h with h1 h2
            injection h2 with h2
            subst h2
            subst h1
            rw [List.nil_append]
          · intro evs m h
            rw [parseLoop_incomplete lookup wr buf tns h16 hlk hel] at h
            injection h with h1 h2
            exact Except.noConfusion h2
        · have heln : _STRUCT_HEADER_LENGTH +
              (parseHeader (buf.take _STRUCT_HEADER_LENGTH)).len ≤ buf.length :=
            Nat.le_of_not_lt hel
          have hel' : ¬(buf ++ ext).length < _STRUCT_HEADER_LENGTH +
              (parseHeader ((buf ++ ext).take _STRUCT_HEADER_LENGTH)).len := by
            rw [htake, List.length_append]
            omega
          have htake2 : (buf ++ ext).take (_STRUCT_HEADER_LENGTH +
              (parseHeader (buf.take _STRUCT_HEADER_LENGTH)).len) =
              buf.take (_STRUCT_HEADER_LENGTH +
                (parseHeader (buf.take _STRUCT_HEADER_LENGTH)).len) :=
            List.take_append_of_le_length heln
          have hdrop : (buf ++ ext).drop (_STRUCT_HEADER_LENGTH +
              (parseHeader (buf.take _STRUCT_HEADER_LENGTH)).len) =
              buf.drop (_STRUCT_HEADER_LENGTH +
                (parseHeader (buf.take _STRUCT_HEADER_LENGTH)).len) ++ ext :=
            List.drop_append_of_le_length heln
          have hrest : (buf.drop (_STRUCT_HEADER_LENGTH +
              (parseHeader (buf.take _STRUCT_HEADER_LENGTH)).len)).length ≤ k := by
            rw [List.length_drop]
            simp only [_STRUCT_HEADER_LENGTH] at h16 hel ⊢
            omega
          cases hwr : wr (parseHeader (buf.take _STRUCT_HEADER_LENGTH)).wd with
          | some path =>
            have hwr' : wr (parseHeader ((buf ++ ext).take _STRUCT_HEADER_LENGTH)).wd =
                some path := by
              rw [htake]
              exact hwr
            have hbig := parseLoop_consume_some lookup wr (buf ++ ext) tns path h16' hlk' hel' hwr'
            rw [htake, htake2, hdrop] at hbig
            constructor
            · intro evs rest h
              rw [parseLoop_consume_some lookup wr buf tns path h16 hlk hel hwr] at h
              injection h with h1 h2
              have hsub := (ih _ hrest ext).1 _ rest (by rw [← h2])
              rw [hbig, hsub]
              subst h1
              rw [List.cons_append]
            · intro evs m h
              rw [parseLoop_consume_some lookup wr buf tns path h16 hlk hel hwr] at h
              injection h with h1 h2
              have hsub := (ih _ hrest ext).2 _ m (by rw [← h2])
              rw [hbig, hsub]
              subst h1
              rfl
          | none =>
            have hwr' : wr (parseHeader ((buf ++ ext).take _STRUCT_HEADER_LENGTH)).wd =
                none := by
              rw [htake]
              exact hwr
            have hbig := parseLoop_consume_none lookup wr (buf ++ ext) tns h16' hlk' hel' hwr'
            rw [htake, hdrop] at hbig
            constructor
            · intro evs rest h
              rw [parseLoop_consume_none lookup wr buf tns h16 hlk hel hwr] at h
              rw [hbig]
              exact (ih _ hrest ext).1 evs rest h
            · intro evs m h
              rw [parseLoop_consume_none lookup wr buf tns h16 hlk hel hwr] at h
              rw [hbig]
              exact (ih _ hrest ext).2 evs m h

/-- An empty read returns immediately, leaving the buffer untouched. -/
theorem handle_nil (lookup : Nat → Option (List String)) (wr : Int → Option String)
    (buffer : List Nat) :
    handle_inotify_event lookup wr buffer [] = ([], Except.ok buffer) := by
  unfold handle_inotify_event
  rw [if_pos rfl]

/-- A non-empty read appends to the buffer and runs the parse loop. -/
theorem handle_cons (lookup : Nat → Option (List String)) (wr : Int → Option String)
    (buffer b : List Nat) (h : b ≠ []) :
    handle_inotify_event lookup wr buffer b = parseLoop lookup wr (buffer ++ b) := by
  unfold handle_inotify_event
  rw [if_neg h]

theorem feedChunks_cons_ok (lookup : Nat → Option (List String)) (wr : Int → Option String)
    (buffer c : List Nat) (cs : List (List Nat)) (evs : List DecodedEvent) (buf1 : List Nat)
    (h : handle_inotify_event lookup wr buffer c = (evs, Except.ok buf1)) :
    feedChunks lookup wr buffer (c :: cs) =
      (evs ++ (feedChunks lookup wr buf1 cs).1, (feedChunks lookup wr buf1 cs).2) := by
  conv_lhs => rw [feedChunks]
  rw [h]

theorem feedChunks_cons_err (lookup : Nat → Option (List String)) (wr : Int → Option String)
    (buffer c : List Nat) (cs : List (List Nat)) (evs : List DecodedEvent) (m : Nat)
    (h : handle_inotify_event lookup wr buffer c = (evs, Except.error m)) :
    feedChunks lookup wr buffer (c :: cs) = (evs, Except.error m) := by
  conv_lhs => rw [feedChunks]
  rw [h]

/-- Incremental feeding from a stuck buffer equals one pass of the parse
loop over the buffer plus all the bytes. -/
theorem feedChunks_eq (lookup : Nat → Option (List String)) (wr : Int → Option String) :
    ∀ (chunks : List (List Nat)) (buffer : List Nat),
      parseLoop lookup wr buffer = ([], Except.ok buffer) →
      feedChunks lookup wr buffer chunks = parseLoop lookup wr (buffer ++ chunks.flatten) := by
  intro chunks
  induction chunks with
  | nil =>
    intro buffer hstuck
    show ([], Except.ok buffer) = _
    rw [List.flatten_nil, List.append_nil]
    exact hstuck.symm
  | cons c cs ih =>
    intro buffer hstuck
    by_cases hc : c = []
    · subst hc
      rw [feedChunks_cons_ok lookup wr buffer [] cs [] buffer (handle_nil lookup wr buffer)]
      rw [ih buffer hstuck, List.nil_append, List.flatten_cons, List.nil_append]
    · rcases hres : parseLoop lookup wr (buffer ++ c) with ⟨evs, res⟩
      cases res with
      | ok buf1 =>
        have hhandle : handle_inotify_event lookup wr buffer c = (evs, Except.ok buf1) := by
          rw [handle_cons lookup wr buffer c hc, hres]
        have hstuck1 : parseLoop lookup wr buf1 = ([], Except.ok buf1) :=
          parseLoop_stuck lookup wr (buffer ++ c).length (buffer ++ c) evs buf1 le_rfl hres
        rw [feedChunks_cons_ok lookup wr buffer c cs evs buf1 hhandle, ih buf1 hstuck1]
        have happ := (parseLoop_append lookup wr (buffer ++ c).length (buffer ++ c)
          le_rfl cs.flatten).1 evs buf1 hres
        rw [List.flatten_cons, ← List.append_assoc, happ]
      | error m =>
        have hhandle : handle_inotify_event lookup wr buffer c = (evs, Except.error m) := by
          rw [handle_cons lookup wr buffer c hc, hres]
        rw [feedChunks_cons_err lookup wr buffer c cs evs m hhandle]
        have happ := (parseLoop_append lookup wr (buffer ++ c).length (buffer ++ c)
          le_rfl cs.flatten).2 evs m hres
        rw [List.flatten_cons, ← List.append_assoc, happ]

/-! ## Claim C3: decoder completeness under arbitrary chunking -/

/-- Claim C3: for any valid sequence of well-formed wire-format records (each
mask recognized, each declared name length in 32-bit range) and any way of
splitting its concatenation into byte chunks, feeding the chunks to the
decoder incrementally -- the retained buffer accumulating between calls --
yields exactly the same ordered event sequence and final state as feeding
the full concatenation in one call. -/
theorem C3_incremental_decode_equals_batch (lookup : Nat → Option (List String))
    (wr : Int → Option String) (rs : List WireRecord) (chunks : List (List Nat))
    (hwf : ∀ rec ∈ rs, (lookup rec.mask).isSome ∧ rec.name.length < 2 ^ 32)
    (hjoin : chunks.flatten = (rs.map encodeRecord).flatten) :
    feedChunks lookup wr [] chunks = handle_inotify_event lookup wr [] chunks.flatten := by
  have hstuck : parseLoop lookup wr [] = ([], Except.ok []) :=
    parseLoop_short lookup wr [] (by simp [_STRUCT_HEADER_LENGTH])
  rw [feedChunks_eq lookup wr chunks [] hstuck, List.nil_append]
  by_cases hc : chunks.flatten = []
  · rw [hc, handle_nil]
    exact hstuck
  · rw [handle_cons lookup wr [] chunks.flatten hc, List.nil_append]

/-- Witness for C3: the two records `rec1`, `rec2` encoded to 40 bytes and
split mid-header at byte 21. -/
theorem C3_witness :
    feedChunks sampleLookup sampleWr []
      [[1, 0, 0, 0, 0, 1, 0, 0, 0, 0, 0, 0, 4, 0, 0, 0, 97, 98, 0, 0, 1],
       [0, 0, 0, 0, 1, 0, 0, 5, 0, 0, 0, 4, 0, 0, 0, 99, 0, 0, 0]] =
    handle_inotify_event sampleLookup sampleWr []
      ([[1, 0, 0, 0, 0, 1, 0, 0, 0, 0, 0, 0, 4, 0, 0, 0, 97, 98, 0, 0, 1],
        [0, 0, 0, 0, 1, 0, 0, 5, 0, 0, 0, 4, 0, 0, 0, 99, 0, 0, 0]].flatten) :=
  C3_incremental_decode_equals_batch sampleLookup sampleWr [rec1, rec2]
    [[1, 0, 0, 0, 0, 1, 0, 0, 0, 0, 0, 0, 4, 0, 0, 0, 97, 98, 0, 0, 1],
     [0, 0, 0, 0, 1, 0, 0, 5, 0, 0, 0, 4, 0, 0, 0, 99, 0, 0, 0]]
    (by decide) (by decide)

/-! ## Claim C4: decoding is transactional per record -/

/-- Claim C4: with fewer bytes than one full header the decoder emits zero
events and consumes nothing; with a full header (of recognized mask) but a
buffer shorter than header length plus the declared name length it stops
without consuming the header, leaving the buffer exactly as it was. -/
theorem C4_transactional_per_record (lookup : Nat → Option (List String))
    (wr : Int → Option String) (buf : List Nat) :
    (buf.length < _STRUCT_HEADER_LENGTH → parseLoop lookup wr buf = ([], Except.ok buf)) ∧
    (∀ tns, ¬buf.length < _STRUCT_HEADER_LENGTH →
      lookup (parseHeader (buf.take _STRUCT_HEADER_LENGTH)).mask = some tns →
      buf.length < _STRUCT_HEADER_LENGTH +
        (parseHeader (buf.take _STRUCT_HEADER_LENGTH)).len →
      parseLoop lookup wr buf = ([], Except.ok buf)) :=
  ⟨parseLoop_short lookup wr buf, fun tns => parseLoop_incomplete lookup wr buf tns⟩

/-- Witness for C4: three stray bytes (shorter than a header), and a full
16-byte header declaring a 4-byte name with no name bytes yet. -/
theorem C4_witness :
    parseLoop sampleLookup sampleWr [1, 2, 3] = ([], Except.ok [1, 2, 3]) ∧
    parseLoop sampleLookup sampleWr [1, 0, 0, 0, 0, 1, 0, 0, 0, 0, 0, 0, 4, 0, 0, 0] =
      ([], Except.ok [1, 0, 0, 0, 0, 1, 0, 0, 0, 0, 0, 0, 4, 0, 0, 0]) :=
  ⟨(C4_transactional_per_record sampleLookup sampleWr [1, 2, 3]).1 (by decide),
   (C4_transactional_per_record sampleLookup sampleWr
      [1, 0, 0, 0, 0, 1, 0, 0, 0, 0, 0, 0, 4, 0, 0, 0]).2 ["IN_CREATE"]
      (by decide) (by decide) (by decide)⟩
